import Mathlib

set_option maxHeartbeats 1000000

/-!
Shallow embedding of the iterative DNS resolver in `src/custom_resolver.py`.

The resolver walks a delegation chain from a hardcoded root server, following
NS referrals and glue addresses, with a TTL-bounded cache, an append-only
structured log, a bounded first-10 metrics aggregator, and a UDP server loop
that answers client queries from the engine.

Modelling conventions:
- machine time is a `Nat` clock carried in the resolver state; each network
  round trip advances it by an environment-chosen amount;
- the network is an environment function from (query counter, server address,
  query name) to an optional DNS response; `none` models both a timeout and a
  reply lacking a valid DNS payload (`not resp or not resp.haslayer(DNS)`);
- Python dicts are association lists with first-match lookup; all dict values
  produced by the program keep unique keys;
- resource-record types are the numeric DNS codes used by the source
  (1 = A, 2 = NS).
-/

def ROOT_SERVER_IP : String := "198.41.0.4"

def CACHE_TTL_SECONDS : Nat := 3600

structure RR where
  rrname : String
  rtype : Nat
  rdata : String
  deriving DecidableEq, Repr

structure DnsResp where
  an : List RR
  ns : List RR
  ar : List RR
  deriving DecidableEq, Repr

def dictGet {α : Type} : List (String × α) → String → Option α
  | [], _ => none
  | (k, v) :: rest, d => if k == d then some v else dictGet rest d

def dictSet {α : Type} : List (String × α) → String → α → List (String × α)
  | [], d, v => [(d, v)]
  | (k, w) :: rest, d, v => if k == d then (k, v) :: rest else (k, w) :: dictSet rest d v

def dictDel {α : Type} : List (String × α) → String → List (String × α)
  | [], _ => []
  | (k, w) :: rest, d => if k == d then rest else (k, w) :: dictDel rest d

/-- Model of `DnsCache.get` (lines 62-69): return the stored address on a fresh entry,
otherwise purge the stale entry (if any) and miss.  `now` stands for the
`time.time()` call. -/
def DnsCache.get (cache : List (String × (String × Nat))) (now : Nat) (domain : String) :
    (Option String × String) × List (String × (String × Nat)) :=
  match dictGet cache domain with
  | some (ip, cached_time) =>
      if now - cached_time < CACHE_TTL_SECONDS then ((some ip, "HIT"), cache)
      else ((none, "MISS"), dictDel cache domain)
  | none => ((none, "MISS"), cache)

/-- Model of `DnsCache.set` (lines 71-72): unconditional overwrite with a fresh
timestamp. -/
def DnsCache.set (cache : List (String × (String × Nat))) (now : Nat) (domain : String)
    (ip : String) : List (String × (String × Nat)) :=
  dictSet cache domain (ip, now)

structure LogRecord where
  timestamp : Nat
  domain_name : String
  resolution_mode : String
  dns_server_ip : String
  step_of_resolution : String
  response_or_referral : String
  round_trip_time : Nat
  total_time_to_resolution : Option Nat
  cache_status : String
  deriving DecidableEq, Repr

def max_domains_for_plot : Nat := 10

/-- Model of `DnsLog.record_plot_data` (lines 40-46): register a plot datum only when
the domain is new and fewer than 10 domains are registered. -/
def record_plot_data (plot_data : List (String × (Nat × Nat))) (unique_count : Nat)
    (domain : String) (total_servers : Nat) (total_latency : Nat) :
    List (String × (Nat × Nat)) × Nat :=
  if dictGet plot_data domain = none ∧ unique_count < max_domains_for_plot then
    (plot_data ++ [(domain, (total_servers, total_latency))], unique_count + 1)
  else
    (plot_data, unique_count)

def isdigit (s : String) : Bool := !s.isEmpty && s.data.all Char.isDigit

/-- Model of `get_step_type` (lines 80-85). -/
def get_step_type (current_ip : String) : String :=
  if current_ip == ROOT_SERVER_IP then "Root"
  else if isdigit ((current_ip.splitOn ".").getLastD "") then "TLD/Authoritative"
  else "Unknown"

/-- Network environment: `resp i server qname` is the reply (if any) to the
`i`-th query of the run, sent to `server` for `qname`; `rtt i` is the elapsed
time of that round trip. -/
structure NetEnv where
  resp : Nat → String → String → Option DnsResp
  rtt : Nat → Nat

/-- Process-wide resolver state: the `DnsCache` dict, the `DnsLog` entries and
plot data, the clock, and the number of network queries sent so far. -/
structure RState where
  cache : List (String × (String × Nat))
  log : List LogRecord
  plot_data : List (String × (Nat × Nat))
  unique_count : Nat
  clock : Nat
  query_count : Nat
  deriving DecidableEq, Repr

def logStep (st : RState) (rec : LogRecord) : RState :=
  { st with log := st.log ++ [rec] }

def recordPlot (st : RState) (domain : String) (total_servers total_latency : Nat) : RState :=
  let r := record_plot_data st.plot_data st.unique_count domain total_servers total_latency
  { st with plot_data := r.1, unique_count := r.2 }

/-- State evolution of one `sr1` network call: the clock advances by the round
trip time and the query counter increments. -/
def afterQuery (env : NetEnv) (st : RState) : RState :=
  { st with clock := st.clock + env.rtt st.query_count, query_count := st.query_count + 1 }

/-- The rdata of the A records of a section, in order
(`[rr.rdata for rr in dns_resp.an if rr.type == 1]`, line 130). -/
def aAnswers (l : List RR) : List String :=
  (l.filter fun rr => rr.rtype == 1).map fun rr => rr.rdata

/-- The NS target names of a section, in order (lines 142-149). -/
def nsNames (l : List RR) : List String :=
  (l.filter fun rr => rr.rtype == 2).map fun rr => rr.rdata

/-- The rdata of the first A record of a section (glue scan, lines 152-157). -/
def firstA (l : List RR) : Option String :=
  (l.find? fun rr => rr.rtype == 1).map fun rr => rr.rdata

/-- Outcome of one iteration of the hop loop: either the activation is done
with a result, or it continues with a new current server. -/
inductive HopOut where
  | done : Option DnsResp → RState → HopOut
  | next : String → RState → HopOut
  deriving Repr

/-- One iteration of the hop loop of `resolve_iteratively` (lines 110-189).
`recurse` performs the nested NS resolution of line 172. -/
def resolveHop (env : NetEnv) (recurse : String → RState → Option DnsResp × RState)
    (domain original_domain : String) (current_ns_ip : String)
    (servers_visited total_start_time : Nat) (st : RState) : HopOut :=
  let qi := st.query_count
  let rtt := env.rtt qi
  let st1 := afterQuery env st
  let timestamp := st1.clock
  let sv := servers_visited + 1
  let step_type := get_step_type current_ns_ip
  match env.resp qi current_ns_ip domain with
  | none =>
      HopOut.done none (logStep st1
        ⟨timestamp, domain, "Iterative (Query Failed)", current_ns_ip, step_type,
         "Timeout or invalid response", rtt, none, "MISS"⟩)
  | some dns_resp =>
    match aAnswers dns_resp.an with
    | final_ip :: _ =>
        let total_latency := st1.clock - total_start_time
        let st2 := logStep st1
          ⟨timestamp, domain, "Iterative (Resolved)", current_ns_ip, "Authoritative",
           "Answer: " ++ final_ip, rtt, some total_latency, "MISS"⟩
        let st3 := { st2 with cache := DnsCache.set st2.cache st2.clock domain final_ip }
        let st4 := recordPlot st3 domain sv total_latency
        HopOut.done (some dns_resp) st4
    | [] =>
      match nsNames dns_resp.ns with
      | [] =>
          HopOut.done none (logStep st1
            ⟨timestamp, domain, "Iterative (Failed delegation)", current_ns_ip, step_type,
             "No authority section for delegation", rtt, none, "MISS"⟩)
      | fallback_ns :: _ =>
        match firstA dns_resp.ar with
        | some glue_ip =>
            HopOut.next glue_ip (logStep st1
              ⟨timestamp, domain, "Iterative (Delegation)", current_ns_ip, step_type,
               "Delegation to: " ++ String.intercalate ", " (nsNames dns_resp.ns) ++
                 " @ Glue IP: " ++ glue_ip, rtt, none, "MISS"⟩)
        | none =>
          if fallback_ns == original_domain then
            HopOut.done none (logStep st1
              ⟨timestamp, domain, "Iterative (Failed delegation)", current_ns_ip, step_type,
               "No glue IP and NS same as original domain", rtt, none, "MISS"⟩)
          else
            match recurse fallback_ns st1 with
            | (some temp_ns_resp, st2) =>
              match temp_ns_resp.an with
              | a0 :: _ =>
                if a0.rtype == 1 then
                  -- line 182: the referral text still holds its hop-start value here
                  HopOut.next a0.rdata (logStep st2
                    ⟨timestamp, domain, "Iterative (Delegation)", current_ns_ip, step_type,
                     "Timeout or invalid response", rtt, none, "MISS"⟩)
                else
                  HopOut.done none (logStep st2
                    ⟨timestamp, domain, "Iterative (Failed delegation)", current_ns_ip, step_type,
                     "Failed to resolve next NS IP: " ++ fallback_ns, rtt, none, "MISS"⟩)
              | [] =>
                  HopOut.done none (logStep st2
                    ⟨timestamp, domain, "Iterative (Failed delegation)", current_ns_ip, step_type,
                     "Failed to resolve next NS IP: " ++ fallback_ns, rtt, none, "MISS"⟩)
            | (none, st2) =>
                HopOut.done none (logStep st2
                  ⟨timestamp, domain, "Iterative (Failed delegation)", current_ns_ip, step_type,
                   "Failed to resolve next NS IP: " ++ fallback_ns, rtt, none, "MISS"⟩)

/-- The hop loop `for hop in range(max_depth)` (line 110), with the
iteration-limit epilogue of lines 192-196. -/
def resolveLoop (env : NetEnv) (recurse : String → RState → Option DnsResp × RState)
    (domain original_domain : String) :
    Nat → String → Nat → Nat → RState → Option DnsResp × RState
  | 0, current_ns_ip, _, total_start_time, st =>
      (none, logStep st
        ⟨st.clock, domain, "Iterative (Failed)", current_ns_ip, get_step_type current_ns_ip,
         "Iteration limit reached", 0, some (st.clock - total_start_time), "MISS"⟩)
  | Nat.succ hops, current_ns_ip, servers_visited, total_start_time, st =>
    match resolveHop env recurse domain original_domain current_ns_ip servers_visited
        total_start_time st with
    | HopOut.done r st2 => (r, st2)
    | HopOut.next server st2 =>
        resolveLoop env recurse domain original_domain hops server (servers_visited + 1)
          total_start_time st2

/-- Body of `resolve_iteratively` (lines 88-196), structurally recursive on
`budget`, which is kept equal to `max_depth + 1 - depth` at every call: thus
`budget = 0` exactly when `depth > max_depth` (the guard of line 89, which
returns `None` without touching the state), and the nested NS resolution of
line 172 at `depth + 1` receives the predecessor budget. -/
def resolveAux (env : NetEnv) :
    Nat → String → Option String → Nat → Nat → RState → Option DnsResp × RState
  | 0, _, _, _, _, st => (none, st)
  | Nat.succ budget, domain, original?, depth, max_depth, st =>
    let original_domain := original?.getD domain
    let total_start_time := st.clock
    let gres := DnsCache.get st.cache st.clock domain
    let st1 := { st with cache := gres.2 }
    let go := fun st' =>
      resolveLoop env
        (fun ns st2 => resolveAux env budget ns (some original_domain) (depth + 1) max_depth st2)
        domain original_domain max_depth ROOT_SERVER_IP 0 total_start_time st'
    match gres.1.1 with
    | some ip_from_cache =>
      -- Python truthiness: `if ip_from_cache:` is false for None and for ""
      if ip_from_cache == "" then go st1
      else
        let total_latency := st1.clock - total_start_time
        let st2 := logStep st1
          ⟨st1.clock, domain, "Iterative (Cached)", "N/A", "Cache",
           "Answer: " ++ ip_from_cache, 0, some total_latency, gres.1.2⟩
        let st3 := recordPlot st2 domain 1 total_latency
        (some ⟨[⟨domain, 1, ip_from_cache⟩], [], []⟩, st3)
    | none => go st1

/-- Model of `resolve_iteratively` with its source default arguments
(line 88), as a function of the network environment and resolver state. -/
def resolve_iteratively (env : NetEnv) (domain : String) (original_domain : Option String)
    (depth : Nat) (max_depth : Nat) (st : RState) : Option DnsResp × RState :=
  resolveAux env (max_depth + 1 - depth) domain original_domain depth max_depth st

/-- Model of the query-name extraction of line 212, which strips all trailing
dots from the decoded name. -/
def strip_trailing_dots (s : String) : String :=
  String.mk ((s.data.reverse.dropWhile fun c => c == '.').reverse)

/-- A DNS message as built by the server loop (lines 216-227): header fields
actually set by the source, the echoed question, and the answer records. -/
structure DnsPkt where
  id : Nat
  qr : Nat
  aa : Nat
  ra : Nat
  rcode : Nat
  qd : String
  an : List RR
  deriving DecidableEq, Repr

/-- Response construction of lines 215-227: an authoritative answer when the
resolution produced a response with a nonempty answer section, otherwise a
SERVFAIL (rcode 2) echoing the question.  Unset scapy fields keep their
defaults (aa = 0, rcode = 0). -/
def build_response (query_id : Nat) (query_qd : String) (dns_response : Option DnsResp) :
    DnsPkt :=
  match dns_response with
  | some r =>
      if !r.an.isEmpty then ⟨query_id, 1, 1, 0, 0, query_qd, r.an⟩
      else ⟨query_id, 1, 0, 0, 2, query_qd, []⟩
  | none => ⟨query_id, 1, 0, 0, 2, query_qd, []⟩

/-- Handling of one decoded query with a question section (lines 212-227):
strip trailing dots, resolve, build the reply. -/
def handle_query (env : NetEnv) (query_id : Nat) (qname : String) (max_depth : Nat)
    (st : RState) : DnsPkt × RState :=
  let domain := strip_trailing_dots qname
  let r := resolve_iteratively env domain none 0 max_depth st
  (build_response query_id qname r.1, r.2)

/-- Upper bound on the number of network queries of one activation tree with
the given budget: each activation runs at most `max_depth` hops, each hop
issuing one query and at most one nested activation at the next depth. -/
def queryBound : Nat → Nat → Nat
  | 0, _ => 0
  | Nat.succ budget, max_depth => max_depth * (1 + queryBound budget max_depth)

/-! ### Association-list (Python dict) lemmas -/

theorem dictGet_dictSet_self {α : Type} (l : List (String × α)) (k : String) (v : α) :
    dictGet (dictSet l k v) k = some v := by
  induction l with
  | nil => simp [dictGet, dictSet]
  | cons p rest ih =>
    obtain ⟨k', v'⟩ := p
    by_cases h : k' == k
    · simp [dictGet, dictSet, h]
    · simp [dictGet, dictSet, h, ih]

theorem dictGet_dictSet_ne {α : Type} (l : List (String × α)) (k d : String) (v : α)
    (h : k ≠ d) : dictGet (dictSet l k v) d = dictGet l d := by
  induction l with
  | nil => simp [dictGet, dictSet, h]
  | cons p rest ih =>
    obtain ⟨k', v'⟩ := p
    by_cases hk : k' == k
    · have : k' = k := by simpa using hk
      subst this
      simp [dictGet, dictSet, hk, h]
    · simp [dictGet, dictSet, hk, ih]

theorem dictGet_dictDel_ne {α : Type} (l : List (String × α)) (k d : String) (h : k ≠ d) :
    dictGet (dictDel l k) d = dictGet l d := by
  induction l with
  | nil => simp [dictGet, dictDel]
  | cons p rest ih =>
    obtain ⟨k', v'⟩ := p
    by_cases hk : k' == k
    · have : k' = k := by simpa using hk
      subst this
      simp [dictGet, dictDel, hk, h]
    · simp [dictGet, dictDel, hk, ih]

theorem dictGet_eq_none_of_not_mem {α : Type} (l : List (String × α)) (k : String)
    (h : k ∉ l.map Prod.fst) : dictGet l k = none := by
  induction l with
  | nil => simp [dictGet]
  | cons p rest ih =>
    obtain ⟨k', v'⟩ := p
    simp only [List.map_cons, List.mem_cons] at h
    push_neg at h
    have hk : (k' == k) = false := by
      simp only [beq_eq_false_iff_ne]
      exact fun he => h.1 he.symm
    simp [dictGet, hk, ih h.2]

theorem dictGet_dictDel_self_of_nodup {α : Type} (l : List (String × α)) (k : String)
    (h : (l.map Prod.fst).Nodup) : dictGet (dictDel l k) k = none := by
  induction l with
  | nil => simp [dictGet, dictDel]
  | cons p rest ih =>
    obtain ⟨k', v'⟩ := p
    simp only [List.map_cons, List.nodup_cons] at h
    by_cases hk : k' == k
    · have hkk : k' = k := by simpa using hk
      subst hkk
      simp only [dictDel, hk, if_true]
      exact dictGet_eq_none_of_not_mem _ _ h.1
    · simp [dictDel, hk, dictGet, ih h.2]

theorem dictGet_append_some {α : Type} (l l2 : List (String × α)) (k : String) (v : α)
    (h : dictGet l k = some v) : dictGet (l ++ l2) k = some v := by
  induction l with
  | nil => simp [dictGet] at h
  | cons p rest ih =>
    obtain ⟨k', v'⟩ := p
    by_cases hk : k' == k <;> simp_all [dictGet]

theorem dictGet_append_self {α : Type} (l : List (String × α)) (k : String) (v : α)
    (h : dictGet l k = none) : dictGet (l ++ [(k, v)]) k = some v := by
  induction l with
  | nil => simp [dictGet]
  | cons p rest ih =>
    obtain ⟨k', v'⟩ := p
    by_cases hk : k' == k <;> simp_all [dictGet]

theorem record_plot_data_preserve (pd : List (String × (Nat × Nat))) (cnt : Nat)
    (d : String) (s l : Nat) (k : String) (v : Nat × Nat) (h : dictGet pd k = some v) :
    dictGet (record_plot_data pd cnt d s l).1 k = some v := by
  unfold record_plot_data
  split
  · exact dictGet_append_some _ _ _ _ h
  · exact h

/-! ### Hop-level lemmas -/

def HopOut.state : HopOut → RState
  | HopOut.done _ s => s
  | HopOut.next _ s => s

def HopOut.answered : HopOut → Bool
  | HopOut.done (some _) _ => true
  | _ => false

theorem resolveHop_cache_pres (env : NetEnv)
    (recurse : String → RState → Option DnsResp × RState)
    (domain original_domain cur : String) (sv ts : Nat) (st : RState) (o : String)
    (Hrec : ∀ ns st1, ns ≠ original_domain →
      dictGet ((recurse ns st1).2).cache o = dictGet st1.cache o)
    (out : HopOut) (heq : resolveHop env recurse domain original_domain cur sv ts st = out)
    (hside : out.answered = false ∨ domain ≠ o) :
    dictGet out.state.cache o = dictGet st.cache o := by
  simp only [resolveHop] at heq
  split at heq
  · subst heq; simp [HopOut.state, logStep, afterQuery]
  · split at heq
    · subst heq
      rcases hside with h | h
      · simp [HopOut.answered] at h
      · simp only [HopOut.state, recordPlot, logStep, afterQuery, DnsCache.set]
        exact dictGet_dictSet_ne _ _ _ _ h
    · split at heq
      · subst heq; simp [HopOut.state, logStep, afterQuery]
      · split at heq
        · subst heq; simp [HopOut.state, logStep, afterQuery]
        · split at heq
          · subst heq; simp [HopOut.state, logStep, afterQuery]
          · rename_i fallback_ns tailNs hns glueS hglue hne
            have hnefb : fallback_ns ≠ original_domain := by simpa using hne
            have hpres := Hrec fallback_ns (afterQuery env st) hnefb
            split at heq
            · rename_i tr st2 hrec
              rw [hrec] at hpres
              split at heq
              · split at heq
                · subst heq; simpa [HopOut.state, logStep, afterQuery] using hpres
                · subst heq; simpa [HopOut.state, logStep, afterQuery] using hpres
              · subst heq; simpa [HopOut.state, logStep, afterQuery] using hpres
            · rename_i st2 hrec
              rw [hrec] at hpres
              subst heq; simpa [HopOut.state, logStep, afterQuery] using hpres

theorem resolveHop_plot_pres (env : NetEnv)
    (recurse : String → RState → Option DnsResp × RState)
    (domain original_domain cur : String) (sv ts : Nat) (st : RState)
    (Hrec : ∀ ns st1 k v, dictGet st1.plot_data k = some v →
      dictGet ((recurse ns st1).2).plot_data k = some v)
    (out : HopOut) (heq : resolveHop env recurse domain original_domain cur sv ts st = out)
    (k : String) (v : Nat × Nat) (h : dictGet st.plot_data k = some v) :
    dictGet out.state.plot_data k = some v := by
  simp only [resolveHop] at heq
  split at heq
  · subst heq; simpa [HopOut.state, logStep, afterQuery] using h
  · split at heq
    · subst heq
      simp only [HopOut.state, recordPlot, logStep, afterQuery]
      exact record_plot_data_preserve _ _ _ _ _ _ _ h
    · split at heq
      · subst heq; simpa [HopOut.state, logStep, afterQuery] using h
      · split at heq
        · subst heq; simpa [HopOut.state, logStep, afterQuery] using h
        · split at heq
          · subst heq; simpa [HopOut.state, logStep, afterQuery] using h
          · rename_i fallback_ns tailNs hns glueS hglue hne
            have hpres := Hrec fallback_ns (afterQuery env st) k v
              (by simpa [afterQuery] using h)
            split at heq
            · rename_i tr st2 hrec
              rw [hrec] at hpres
              split at heq
              · split at heq
                · subst heq; simpa [HopOut.state, logStep] using hpres
                · subst heq; simpa [HopOut.state, logStep] using hpres
              · subst heq; simpa [HopOut.state, logStep] using hpres
            · rename_i st2 hrec
              rw [hrec] at hpres
              subst heq; simpa [HopOut.state, logStep] using hpres

theorem resolveHop_qc (env : NetEnv)
    (recurse : String → RState → Option DnsResp × RState)
    (domain original_domain cur : String) (sv ts : Nat) (st : RState) (K : Nat)
    (Hrec : ∀ ns st1, ((recurse ns st1).2).query_count ≤ st1.query_count + K)
    (out : HopOut) (heq : resolveHop env recurse domain original_domain cur sv ts st = out) :
    out.state.query_count ≤ st.query_count + 1 + K := by
  simp only [resolveHop] at heq
  split at heq
  · subst heq; simp only [HopOut.state, logStep, afterQuery]; omega
  · split at heq
    · subst heq; simp only [HopOut.state, recordPlot, logStep, afterQuery]; omega
    · split at heq
      · subst heq; simp only [HopOut.state, logStep, afterQuery]; omega
      · split at heq
        · subst heq; simp only [HopOut.state, logStep, afterQuery]; omega
        · split at heq
          · subst heq; simp only [HopOut.state, logStep, afterQuery]; omega
          · rename_i fallback_ns tailNs hns glueS hglue hne
            have hq := Hrec fallback_ns (afterQuery env st)
            split at heq
            · rename_i tr st2 hrec
              rw [hrec] at hq
              simp only [afterQuery] at hq
              split at heq
              · split at heq
                · subst heq; simp only [HopOut.state, logStep]; omega
                · subst heq; simp only [HopOut.state, logStep]; omega
              · subst heq; simp only [HopOut.state, logStep]; omega
            · rename_i st2 hrec
              rw [hrec] at hq
              simp only [afterQuery] at hq
              subst heq; simp only [HopOut.state, logStep]; omega

theorem resolveHop_someA (env : NetEnv)
    (recurse : String → RState → Option DnsResp × RState)
    (domain original_domain cur : String) (sv ts : Nat) (st : RState)
    (resp : DnsResp) (st2 : RState)
    (heq : resolveHop env recurse domain original_domain cur sv ts st =
      HopOut.done (some resp) st2) :
    aAnswers resp.an ≠ [] := by
  simp only [resolveHop] at heq
  split at heq
  · simp at heq
  · split at heq
    · rename_i ha
      obtain ⟨h1, -⟩ := HopOut.done.inj heq
      obtain rfl : resp = _ := (Option.some.inj h1).symm
      simp [ha]
    · split at heq
      · simp at heq
      · split at heq
        · simp at heq
        · split at heq
          · simp at heq
          · split at heq
            · split at heq
              · split at heq
                · simp at heq
                · simp at heq
              · simp at heq
            · simp at heq

theorem resolveHop_timeout (env : NetEnv)
    (recurse : String → RState → Option DnsResp × RState)
    (domain original_domain cur : String) (sv ts : Nat) (st : RState)
    (h : env.resp st.query_count cur domain = none) :
    resolveHop env recurse domain original_domain cur sv ts st =
      HopOut.done none (logStep (afterQuery env st)
        ⟨st.clock + env.rtt st.query_count, domain, "Iterative (Query Failed)", cur,
         get_step_type cur, "Timeout or invalid response", env.rtt st.query_count, none,
         "MISS"⟩) := by
  simp only [resolveHop, h]
  rfl

theorem resolveHop_answer (env : NetEnv)
    (recurse : String → RState → Option DnsResp × RState)
    (domain original_domain cur : String) (sv ts : Nat) (st : RState)
    (resp : DnsResp) (final_ip : String) (tl : List String)
    (h : env.resp st.query_count cur domain = some resp)
    (ha : aAnswers resp.an = final_ip :: tl) :
    resolveHop env recurse domain original_domain cur sv ts st =
      HopOut.done (some resp)
        (recordPlot
          { logStep (afterQuery env st)
              ⟨st.clock + env.rtt st.query_count, domain, "Iterative (Resolved)", cur,
               "Authoritative", "Answer: " ++ final_ip, env.rtt st.query_count,
               some (st.clock + env.rtt st.query_count - ts), "MISS"⟩ with
            cache := DnsCache.set st.cache (st.clock + env.rtt st.query_count) domain
              final_ip }
          domain (sv + 1) (st.clock + env.rtt st.query_count - ts)) := by
  simp only [resolveHop, h, ha]
  rfl

theorem resolveHop_glue (env : NetEnv)
    (recurse : String → RState → Option DnsResp × RState)
    (domain original_domain cur : String) (sv ts : Nat) (st : RState)
    (resp : DnsResp) (f : String) (fs : List String) (g : String)
    (h : env.resp st.query_count cur domain = some resp)
    (ha : aAnswers resp.an = []) (hns : nsNames resp.ns = f :: fs)
    (hg : firstA resp.ar = some g) :
    resolveHop env recurse domain original_domain cur sv ts st =
      HopOut.next g (logStep (afterQuery env st)
        ⟨st.clock + env.rtt st.query_count, domain, "Iterative (Delegation)", cur,
         get_step_type cur,
         "Delegation to: " ++ String.intercalate ", " (nsNames resp.ns) ++
           " @ Glue IP: " ++ g,
         env.rtt st.query_count, none, "MISS"⟩) := by
  simp only [resolveHop, h, ha, hns, hg]
  rfl

theorem resolveHop_noglue_self (env : NetEnv)
    (recurse : String → RState → Option DnsResp × RState)
    (domain original_domain cur : String) (sv ts : Nat) (st : RState)
    (resp : DnsResp) (f : String) (fs : List String)
    (h : env.resp st.query_count cur domain = some resp)
    (ha : aAnswers resp.an = []) (hns : nsNames resp.ns = f :: fs)
    (hg : firstA resp.ar = none) (hf : f = original_domain) :
    resolveHop env recurse domain original_domain cur sv ts st =
      HopOut.done none (logStep (afterQuery env st)
        ⟨st.clock + env.rtt st.query_count, domain, "Iterative (Failed delegation)", cur,
         get_step_type cur, "No glue IP and NS same as original domain",
         env.rtt st.query_count, none, "MISS"⟩) := by
  subst hf
  simp only [resolveHop, h, ha, hns, hg, beq_self_eq_true, if_true]
  rfl

theorem resolveHop_noglue_continue (env : NetEnv)
    (recurse : String → RState → Option DnsResp × RState)
    (domain original_domain cur : String) (sv ts : Nat) (st : RState)
    (resp : DnsResp) (f : String) (fs : List String) (tr : DnsResp) (st2 : RState)
    (a0 : RR) (atl : List RR)
    (h : env.resp st.query_count cur domain = some resp)
    (ha : aAnswers resp.an = []) (hns : nsNames resp.ns = f :: fs)
    (hg : firstA resp.ar = none) (hf : f ≠ original_domain)
    (hrec : recurse f (afterQuery env st) = (some tr, st2))
    (han : tr.an = a0 :: atl) (ha0 : a0.rtype = 1) :
    resolveHop env recurse domain original_domain cur sv ts st =
      HopOut.next a0.rdata (logStep st2
        ⟨st.clock + env.rtt st.query_count, domain, "Iterative (Delegation)", cur,
         get_step_type cur, "Timeout or invalid response", env.rtt st.query_count, none,
         "MISS"⟩) := by
  simp only [resolveHop, h, ha, hns, hg, show (f == original_domain) = false by
    simpa using hf, if_false, hrec, han, ha0]
  simp only [beq_self_eq_true, if_true]
  rfl

def nestedOk : Option DnsResp → Bool
  | some tr =>
    match tr.an with
    | a0 :: _ => a0.rtype == 1
    | [] => false
  | none => false

theorem resolveHop_noglue_fail (env : NetEnv)
    (recurse : String → RState → Option DnsResp × RState)
    (domain original_domain cur : String) (sv ts : Nat) (st : RState)
    (resp : DnsResp) (f : String) (fs : List String) (r : Option DnsResp) (st2 : RState)
    (h : env.resp st.query_count cur domain = some resp)
    (ha : aAnswers resp.an = []) (hns : nsNames resp.ns = f :: fs)
    (hg : firstA resp.ar = none) (hf : f ≠ original_domain)
    (hrec : recurse f (afterQuery env st) = (r, st2))
    (hbad : nestedOk r = false) :
    resolveHop env recurse domain original_domain cur sv ts st =
      HopOut.done none (logStep st2
        ⟨st.clock + env.rtt st.query_count, domain, "Iterative (Failed delegation)", cur,
         get_step_type cur, "Failed to resolve next NS IP: " ++ f,
         env.rtt st.query_count, none, "MISS"⟩) := by
  simp only [resolveHop, h, ha, hns, hg, show (f == original_domain) = false by
    simpa using hf, if_false, hrec]
  match r, hbad with
  | none, _ => rfl
  | some tr, hbad =>
    match han : tr.an, hbad with
    | [], _ => simp only [han]; rfl
    | a0 :: atl, hbad =>
      simp only [nestedOk, han] at hbad
      simp only [han, hbad, if_false]
      rfl

/-! ### Loop-level lemmas -/

theorem resolveLoop_cache_pres (env : NetEnv)
    (recurse : String → RState → Option DnsResp × RState)
    (domain original_domain : String) (o : String)
    (Hrec : ∀ ns st1, ns ≠ original_domain →
      dictGet ((recurse ns st1).2).cache o = dictGet st1.cache o) :
    ∀ hops cur sv ts st,
      ((resolveLoop env recurse domain original_domain hops cur sv ts st).1 = none ∨
        domain ≠ o) →
      dictGet ((resolveLoop env recurse domain original_domain hops cur sv ts st).2).cache o =
        dictGet st.cache o := by
  intro hops
  induction hops with
  | zero => intro cur sv ts st hside; simp [resolveLoop, logStep]
  | succ n ih =>
    intro cur sv ts st hside
    cases hhop : resolveHop env recurse domain original_domain cur sv ts st with
    | done r st2 =>
      have hl : resolveLoop env recurse domain original_domain (n + 1) cur sv ts st =
          (r, st2) := by
        simp only [resolveLoop, hhop]
      rw [hl] at hside ⊢
      have hpres := resolveHop_cache_pres env recurse domain original_domain cur sv ts st o
        Hrec _ hhop
      rcases hside with hnone | hne
      · simp only at hnone
        subst hnone
        exact hpres (Or.inl rfl)
      · exact hpres (Or.inr hne)
    | next s st2 =>
      have hl : resolveLoop env recurse domain original_domain (n + 1) cur sv ts st =
          resolveLoop env recurse domain original_domain n s (sv + 1) ts st2 := by
        simp only [resolveLoop, hhop]
      rw [hl] at hside ⊢
      have hpres := resolveHop_cache_pres env recurse domain original_domain cur sv ts st o
        Hrec _ hhop (Or.inl rfl)
      simp only [HopOut.state] at hpres
      rw [ih s (sv + 1) ts st2 hside, hpres]

theorem resolveLoop_plot_pres (env : NetEnv)
    (recurse : String → RState → Option DnsResp × RState)
    (domain original_domain : String)
    (Hrec : ∀ ns st1 k v, dictGet st1.plot_data k = some v →
      dictGet ((recurse ns st1).2).plot_data k = some v) :
    ∀ hops cur sv ts st k v, dictGet st.plot_data k = some v →
      dictGet ((resolveLoop env recurse domain original_domain hops cur sv ts st).2).plot_data
        k = some v := by
  intro hops
  induction hops with
  | zero => intro cur sv ts st k v h; simpa [resolveLoop, logStep] using h
  | succ n ih =>
    intro cur sv ts st k v h
    cases hhop : resolveHop env recurse domain original_domain cur sv ts st with
    | done r st2 =>
      have hl : resolveLoop env recurse domain original_domain (n + 1) cur sv ts st =
          (r, st2) := by
        simp only [resolveLoop, hhop]
      rw [hl]
      exact resolveHop_plot_pres env recurse domain original_domain cur sv ts st Hrec _
        hhop k v h
    | next s st2 =>
      have hl : resolveLoop env recurse domain original_domain (n + 1) cur sv ts st =
          resolveLoop env recurse domain original_domain n s (sv + 1) ts st2 := by
        simp only [resolveLoop, hhop]
      rw [hl]
      exact ih s (sv + 1) ts st2 k v
        (resolveHop_plot_pres env recurse domain original_domain cur sv ts st Hrec _
          hhop k v h)

theorem resolveLoop_qc (env : NetEnv)
    (recurse : String → RState → Option DnsResp × RState)
    (domain original_domain : String) (K : Nat)
    (Hrec : ∀ ns st1, ((recurse ns st1).2).query_count ≤ st1.query_count + K) :
    ∀ hops cur sv ts st,
      ((resolveLoop env recurse domain original_domain hops cur sv ts st).2).query_count ≤
        st.query_count + hops * (1 + K) := by
  intro hops
  induction hops with
  | zero => intro cur sv ts st; simp [resolveLoop, logStep]
  | succ n ih =>
    intro cur sv ts st
    cases hhop : resolveHop env recurse domain original_domain cur sv ts st with
    | done r st2 =>
      have hl : resolveLoop env recurse domain original_domain (n + 1) cur sv ts st =
          (r, st2) := by
        simp only [resolveLoop, hhop]
      rw [hl]
      have hq := resolveHop_qc env recurse domain original_domain cur sv ts st K Hrec _ hhop
      simp only [HopOut.state] at hq
      dsimp only
      rw [Nat.succ_mul]
      omega
    | next s st2 =>
      have hl : resolveLoop env recurse domain original_domain (n + 1) cur sv ts st =
          resolveLoop env recurse domain original_domain n s (sv + 1) ts st2 := by
        simp only [resolveLoop, hhop]
      rw [hl]
      have hq := resolveHop_qc env recurse domain original_domain cur sv ts st K Hrec _ hhop
      simp only [HopOut.state] at hq
      have hih := ih s (sv + 1) ts st2
      rw [Nat.succ_mul]
      omega

theorem resolveLoop_someA (env : NetEnv)
    (recurse : String → RState → Option DnsResp × RState)
    (domain original_domain : String) :
    ∀ hops cur sv ts st resp,
      (resolveLoop env recurse domain original_domain hops cur sv ts st).1 = some resp →
      aAnswers resp.an ≠ [] := by
  intro hops
  induction hops with
  | zero => intro cur sv ts st resp h; simp [resolveLoop] at h
  | succ n ih =>
    intro cur sv ts st resp h
    cases hhop : resolveHop env recurse domain original_domain cur sv ts st with
    | done r st2 =>
      have hl : resolveLoop env recurse domain original_domain (n + 1) cur sv ts st =
          (r, st2) := by
        simp only [resolveLoop, hhop]
      rw [hl] at h
      simp only at h
      subst h
      exact resolveHop_someA env recurse domain original_domain cur sv ts st resp st2 hhop
    | next s st2 =>
      have hl : resolveLoop env recurse domain original_domain (n + 1) cur sv ts st =
          resolveLoop env recurse domain original_domain n s (sv + 1) ts st2 := by
        simp only [resolveLoop, hhop]
      rw [hl] at h
      exact ih s (sv + 1) ts st2 resp h

/-- Walking a glue-supplied delegation chain: `j` referral hops, each supplying
glue for the next server, then an A answer at hop `j + 1`. -/
theorem resolveLoop_chain (env : NetEnv)
    (recurse : String → RState → Option DnsResp × RState)
    (domain original_domain : String) (ans : DnsResp) (final_ip : String)
    (tl : List String) :
    ∀ (j : Nat) (srv : Nat → String) (hops sv : Nat) (st : RState),
      j < hops →
      (∀ i, i < j → ∃ r, env.resp (st.query_count + i) (srv i) domain = some r ∧
        aAnswers r.an = [] ∧ nsNames r.ns ≠ [] ∧ firstA r.ar = some (srv (i + 1))) →
      env.resp (st.query_count + j) (srv j) domain = some ans →
      aAnswers ans.an = final_ip :: tl →
      ∀ ts, ∃ st',
        resolveLoop env recurse domain original_domain hops (srv 0) sv ts st =
          (some ans, st') ∧
        st'.query_count = st.query_count + j + 1 ∧
        st'.cache = DnsCache.set st.cache st'.clock domain final_ip ∧
        (∃ pre rec, st'.log = st.log ++ pre ++ [rec] ∧
          rec.resolution_mode = "Iterative (Resolved)" ∧
          rec.response_or_referral = "Answer: " ++ final_ip ∧
          rec.dns_server_ip = srv j) ∧
        st'.plot_data =
          (record_plot_data st.plot_data st.unique_count domain (sv + j + 1)
            (st'.clock - ts)).1 ∧
        st'.unique_count =
          (record_plot_data st.plot_data st.unique_count domain (sv + j + 1)
            (st'.clock - ts)).2 := by
  intro j
  induction j with
  | zero =>
    intro srv hops sv st hj hchain hans hansA ts
    obtain ⟨m, rfl⟩ : ∃ m, hops = m + 1 := ⟨hops - 1, by omega⟩
    rw [Nat.add_zero] at hans
    have hhop := resolveHop_answer env recurse domain original_domain (srv 0) sv ts st
      ans final_ip tl hans hansA
    refine ⟨recordPlot
        { logStep (afterQuery env st)
            ⟨st.clock + env.rtt st.query_count, domain, "Iterative (Resolved)", srv 0,
             "Authoritative", "Answer: " ++ final_ip, env.rtt st.query_count,
             some (st.clock + env.rtt st.query_count - ts), "MISS"⟩ with
          cache := DnsCache.set st.cache (st.clock + env.rtt st.query_count) domain
            final_ip }
        domain (sv + 1) (st.clock + env.rtt st.query_count - ts), ?_, ?_, ?_, ?_, ?_, ?_⟩
    · simp only [resolveLoop, hhop]
    · simp [recordPlot, logStep, afterQuery]
    · simp [recordPlot, logStep, afterQuery]
    · refine ⟨[], ⟨st.clock + env.rtt st.query_count, domain, "Iterative (Resolved)", srv 0,
        "Authoritative", "Answer: " ++ final_ip, env.rtt st.query_count,
        some (st.clock + env.rtt st.query_count - ts), "MISS"⟩, ?_, rfl, rfl, rfl⟩
      simp [recordPlot, logStep, afterQuery]
    · simp [recordPlot, logStep, afterQuery]
    · simp [recordPlot, logStep, afterQuery]
  | succ j ih =>
    intro srv hops sv st hj hchain hans hansA ts
    obtain ⟨m, rfl⟩ : ∃ m, hops = m + 1 := ⟨hops - 1, by omega⟩
    obtain ⟨r0, h0, ha0, hns0, hg0⟩ := hchain 0 (Nat.succ_pos j)
    obtain ⟨f, fs, hffs⟩ := List.exists_cons_of_ne_nil hns0
    rw [Nat.add_zero] at h0
    have hhop := resolveHop_glue env recurse domain original_domain (srv 0) sv ts st
      r0 f fs (srv 1) h0 ha0 hffs hg0
    have hl : resolveLoop env recurse domain original_domain (m + 1) (srv 0) sv ts st =
        resolveLoop env recurse domain original_domain m (srv 1) (sv + 1) ts
          (logStep (afterQuery env st)
            ⟨st.clock + env.rtt st.query_count, domain, "Iterative (Delegation)", srv 0,
             get_step_type (srv 0),
             "Delegation to: " ++ String.intercalate ", " (nsNames r0.ns) ++
               " @ Glue IP: " ++ srv 1,
             env.rtt st.query_count, none, "MISS"⟩) := by
      simp only [resolveLoop, hhop]
    set st2 := logStep (afterQuery env st)
      ⟨st.clock + env.rtt st.query_count, domain, "Iterative (Delegation)", srv 0,
       get_step_type (srv 0),
       "Delegation to: " ++ String.intercalate ", " (nsNames r0.ns) ++
         " @ Glue IP: " ++ srv 1,
       env.rtt st.query_count, none, "MISS"⟩ with hst2
    have hqc2 : st2.query_count = st.query_count + 1 := by
      simp [hst2, logStep, afterQuery]
    have hchain2 : ∀ i, i < j → ∃ r,
        env.resp (st2.query_count + i) (srv (i + 1)) domain = some r ∧
        aAnswers r.an = [] ∧ nsNames r.ns ≠ [] ∧ firstA r.ar = some (srv (i + 2)) := by
      intro i hi
      obtain ⟨r, hr, h1, h2, h3⟩ := hchain (i + 1) (by omega)
      refine ⟨r, ?_, h1, h2, h3⟩
      rw [hqc2]
      have : st.query_count + 1 + i = st.query_count + (i + 1) := by omega
      rw [this]
      exact hr
    have hans2 : env.resp (st2.query_count + j) (srv (j + 1)) domain = some ans := by
      rw [hqc2]
      have : st.query_count + 1 + j = st.query_count + (j + 1) := by omega
      rw [this]
      exact hans
    obtain ⟨st', hloop, hqc, hcache, hlog, hplot, hcnt⟩ :=
      ih (fun i => srv (i + 1)) m (sv + 1) st2 (by omega) hchain2 hans2 hansA ts
    refine ⟨st', ?_, ?_, ?_, ?_, ?_, ?_⟩
    · rw [hl]; exact hloop
    · rw [hqc, hqc2]; omega
    · rw [hcache]
      have : st2.cache = st.cache := by simp [hst2, logStep, afterQuery]
      rw [this]
    · obtain ⟨pre, rec, hlg, hm, hrr, hsrv⟩ := hlog
      refine ⟨⟨st.clock + env.rtt st.query_count, domain, "Iterative (Delegation)", srv 0,
        get_step_type (srv 0),
        "Delegation to: " ++ String.intercalate ", " (nsNames r0.ns) ++
          " @ Glue IP: " ++ srv 1,
        env.rtt st.query_count, none, "MISS"⟩ :: pre, rec, ?_, hm, hrr, hsrv⟩
      rw [hlg]
      simp [hst2, logStep, afterQuery]
    · rw [hplot]
      have h1 : st2.plot_data = st.plot_data := by simp [hst2, logStep, afterQuery]
      have h2 : st2.unique_count = st.unique_count := by simp [hst2, logStep, afterQuery]
      have h3 : sv + 1 + j + 1 = sv + (j + 1) + 1 := by omega
      rw [h1, h2, h3]
    · have h1 : st2.plot_data = st.plot_data := by simp [hst2, logStep, afterQuery]
      have h2 : st2.unique_count = st.unique_count := by simp [hst2, logStep, afterQuery]
      have h3 : sv + 1 + j + 1 = sv + (j + 1) + 1 := by omega
      rw [hcnt, h1, h2, h3]

/-! ### Resolver-level invariant lemmas -/

theorem DnsCache.get_snd_pres (c : List (String × (String × Nat))) (now : Nat)
    (d o : String) (h : d ≠ o) :
    dictGet (DnsCache.get c now d).2 o = dictGet c o := by
  unfold DnsCache.get
  split
  · split
    · rfl
    · exact dictGet_dictDel_ne _ _ _ h
  · rfl

/-- Within the resolution of `domain` on behalf of `original`, when
`domain ≠ original` the cache entry of `original` is never touched: every
cache write of the activation tree is keyed by an activation domain, and the
cycle guard keeps `original` out of those. -/
theorem resolveAux_cache_pres_ne (env : NetEnv) :
    ∀ (budget : Nat) (domain o : String) (depth max_depth : Nat) (st : RState),
      domain ≠ o →
      dictGet ((resolveAux env budget domain (some o) depth max_depth st).2).cache o =
        dictGet st.cache o := by
  intro budget
  induction budget with
  | zero => intro domain o depth max_depth st hdo; rfl
  | succ b ih =>
    intro domain o depth max_depth st hdo
    simp only [resolveAux]
    have hHrec : ∀ ns st1, ns ≠ (some o : Option String).getD domain →
        dictGet ((resolveAux env b ns (some ((some o : Option String).getD domain))
          (depth + 1) max_depth st1).2).cache o = dictGet st1.cache o := by
      intro ns st1 hne
      simp only [Option.getD] at hne ⊢
      exact ih ns o (depth + 1) max_depth st1 hne
    split
    · split
      · rw [resolveLoop_cache_pres env _ domain _ o hHrec max_depth ROOT_SERVER_IP 0
          st.clock _ (Or.inr hdo)]
        exact DnsCache.get_snd_pres _ _ _ _ hdo
      · simp only [recordPlot, logStep]
        exact DnsCache.get_snd_pres _ _ _ _ hdo
    · rw [resolveLoop_cache_pres env _ domain _ o hHrec max_depth ROOT_SERVER_IP 0
        st.clock _ (Or.inr hdo)]
      exact DnsCache.get_snd_pres _ _ _ _ hdo

/-- Registered plot data is never overwritten or removed by any later
resolver activity. -/
theorem resolveAux_plot_pres (env : NetEnv) :
    ∀ (budget : Nat) (domain : String) (orig? : Option String)
      (depth max_depth : Nat) (st : RState) (k : String) (v : Nat × Nat),
      dictGet st.plot_data k = some v →
      dictGet ((resolveAux env budget domain orig? depth max_depth st).2).plot_data k =
        some v := by
  intro budget
  induction budget with
  | zero => intro domain orig? depth max_depth st k v h; exact h
  | succ b ih =>
    intro domain orig? depth max_depth st k v h
    simp only [resolveAux]
    have hHrec : ∀ ns st1 k v, dictGet st1.plot_data k = some v →
        dictGet ((resolveAux env b ns (some (orig?.getD domain))
          (depth + 1) max_depth st1).2).plot_data k = some v := by
      intro ns st1 k v hkv
      exact ih ns (some (orig?.getD domain)) (depth + 1) max_depth st1 k v hkv
    split
    · split
      · exact resolveLoop_plot_pres env _ domain _ hHrec max_depth ROOT_SERVER_IP 0
          st.clock _ k v h
      · simp only [recordPlot, logStep]
        exact record_plot_data_preserve _ _ _ _ _ _ _ h
    · exact resolveLoop_plot_pres env _ domain _ hHrec max_depth ROOT_SERVER_IP 0
        st.clock _ k v h

/-- The number of network queries of a whole activation tree is bounded by
`queryBound`: the shared depth budget bounds total work. -/
theorem resolveAux_qc (env : NetEnv) :
    ∀ (budget : Nat) (domain : String) (orig? : Option String)
      (depth max_depth : Nat) (st : RState),
      ((resolveAux env budget domain orig? depth max_depth st).2).query_count ≤
        st.query_count + queryBound budget max_depth := by
  intro budget
  induction budget with
  | zero => intro domain orig? depth max_depth st; simp [resolveAux, queryBound]
  | succ b ih =>
    intro domain orig? depth max_depth st
    simp only [resolveAux]
    have hHrec : ∀ ns st1,
        ((resolveAux env b ns (some (orig?.getD domain)) (depth + 1) max_depth st1).2).query_count ≤
          st1.query_count + queryBound b max_depth := by
      intro ns st1
      exact ih ns (some (orig?.getD domain)) (depth + 1) max_depth st1
    split
    · split
      · have := resolveLoop_qc env _ domain (orig?.getD domain) (queryBound b max_depth)
          hHrec max_depth ROOT_SERVER_IP 0 st.clock
          { st with cache := (DnsCache.get st.cache st.clock domain).2 }
        simp only [queryBound, Nat.mul_comm]
        simpa using this
      · simp [recordPlot, logStep, queryBound]
    · have := resolveLoop_qc env _ domain (orig?.getD domain) (queryBound b max_depth)
        hHrec max_depth ROOT_SERVER_IP 0 st.clock
        { st with cache := (DnsCache.get st.cache st.clock domain).2 }
      simp only [queryBound, Nat.mul_comm]
      simpa using this

/-- Every successful resolution result carries at least one A record in its
answer section. -/
theorem resolveAux_someA (env : NetEnv) :
    ∀ (budget : Nat) (domain : String) (orig? : Option String)
      (depth max_depth : Nat) (st : RState) (resp : DnsResp),
      (resolveAux env budget domain orig? depth max_depth st).1 = some resp →
      aAnswers resp.an ≠ [] := by
  intro budget
  induction budget with
  | zero => intro domain orig? depth max_depth st resp h; simp [resolveAux] at h
  | succ b ih =>
    intro domain orig? depth max_depth st resp h
    simp only [resolveAux] at h
    split at h
    · split at h
      · exact resolveLoop_someA env _ domain _ max_depth ROOT_SERVER_IP 0 st.clock _ resp h
      · dsimp only at h
        rw [← Option.some.inj h]
        simp [aAnswers]
    · exact resolveLoop_someA env _ domain _ max_depth ROOT_SERVER_IP 0 st.clock _ resp h

/-! ### Claims -/

theorem head?_dropWhile_not {α : Type} (p : α → Bool) :
    ∀ (l : List α) (a : α), (List.dropWhile p l).head? = some a → p a = false := by
  intro l
  induction l with
  | nil => intro a h; simp [List.dropWhile] at h
  | cons x xs ih =>
    intro a h
    by_cases hp : p x
    · rw [List.dropWhile_cons_of_pos hp] at h
      exact ih a h
    · rw [List.dropWhile_cons_of_neg hp] at h
      simp only [List.head?_cons] at h
      rw [← Option.some.inj h]
      simpa using hp

/-- C6: `Cache.get(domain)` returns the stored address with status HIT iff a
fresh entry exists; a stale entry is deleted and `get` misses; `set`
unconditionally overwrites with a fresh timestamp. -/
theorem claim_C6_cache_get_set :
    (∀ c now d ip, (DnsCache.get c now d).1.1 = some ip ↔
      ∃ t, dictGet c d = some (ip, t) ∧ now - t < CACHE_TTL_SECONDS) ∧
    (∀ c now d, (DnsCache.get c now d).1.2 = "HIT" ↔
      ((DnsCache.get c now d).1.1).isSome = true) ∧
    (∀ c now d ip t, dictGet c d = some (ip, t) → ¬ now - t < CACHE_TTL_SECONDS →
      DnsCache.get c now d = ((none, "MISS"), dictDel c d)) ∧
    (∀ (c : List (String × (String × Nat))) (d : String), (c.map Prod.fst).Nodup →
      dictGet (dictDel c d) d = none) ∧
    (∀ c now d ip, dictGet (DnsCache.set c now d ip) d = some (ip, now)) ∧
    (∀ c now d ip k, k ≠ d → dictGet (DnsCache.set c now d ip) k = dictGet c k) := by
  refine ⟨?_, ?_, ?_, ?_, ?_, ?_⟩
  · intro c now d ip
    unfold DnsCache.get
    split
    · rename_i ip' t' hg
      split
      · rename_i hf
        simp only [hg]
        constructor
        · intro h
          exact ⟨t', by rw [Option.some.inj h], hf⟩
        · rintro ⟨t, hgt, -⟩
          obtain ⟨h1, -⟩ := Prod.mk.inj (Option.some.inj hgt)
          rw [h1]
      · rename_i hf
        simp only [hg]
        constructor
        · intro h; exact absurd h (by simp)
        · rintro ⟨t, hgt, hft⟩
          obtain ⟨-, h2⟩ := Prod.mk.inj (Option.some.inj hgt)
          subst h2
          exact absurd hft hf
    · rename_i hg
      simp [hg]
  · intro c now d
    unfold DnsCache.get
    split
    · split
      · simp
      · simp
    · simp
  · intro c now d ip t hg hf
    unfold DnsCache.get
    rw [hg]
    simp [hf]
  · intro c d h
    exact dictGet_dictDel_self_of_nodup c d h
  · intro c now d ip
    unfold DnsCache.set
    exact dictGet_dictSet_self c d (ip, now)
  · intro c now d ip k h
    unfold DnsCache.set
    exact dictGet_dictSet_ne c d k (ip, now) (fun he => h he.symm) |>.symm ▸ rfl

/-- C8: plot data registers a datum only for a new domain under the 10-domain
cap, is a no-op otherwise (no eviction), keeps at most 10 entries in
first-come order, and a registered datum is never mutated — in particular not
by any later resolver activity on the same or another domain. -/
theorem claim_C8_plot_data_cap :
    (∀ pd cnt d s l, dictGet pd d = none → cnt < max_domains_for_plot →
      record_plot_data pd cnt d s l = (pd ++ [(d, (s, l))], cnt + 1)) ∧
    (∀ pd cnt d s l, dictGet pd d ≠ none ∨ ¬ cnt < max_domains_for_plot →
      record_plot_data pd cnt d s l = (pd, cnt)) ∧
    (∀ pd cnt d s l, pd.length = cnt → cnt ≤ max_domains_for_plot →
      (record_plot_data pd cnt d s l).1.length = (record_plot_data pd cnt d s l).2 ∧
      (record_plot_data pd cnt d s l).2 ≤ max_domains_for_plot) ∧
    (∀ pd cnt d s l k v, dictGet pd k = some v →
      dictGet (record_plot_data pd cnt d s l).1 k = some v) ∧
    (∀ env domain orig? depth max_depth st k v, dictGet st.plot_data k = some v →
      dictGet ((resolve_iteratively env domain orig? depth max_depth st).2).plot_data k =
        some v) := by
  refine ⟨?_, ?_, ?_, ?_, ?_⟩
  · intro pd cnt d s l h1 h2
    simp [record_plot_data, h1, h2]
  · intro pd cnt d s l h
    rcases h with h | h
    · simp [record_plot_data, h]
    · unfold record_plot_data
      rw [if_neg]
      rintro ⟨-, h2⟩
      exact h h2
  · intro pd cnt d s l hlen hle
    unfold record_plot_data
    split
    · rename_i h
      simp [hlen]
      omega
    · simp [hlen, hle]
  · intro pd cnt d s l k v h
    exact record_plot_data_preserve pd cnt d s l k v h
  · intro env domain orig? depth max_depth st k v h
    exact resolveAux_plot_pres env _ domain orig? depth max_depth st k v h

/-- C10: cache keys are exact strings — `set`/`get` at distinct keys (case
variants included) never interfere — and the server strips only trailing dots
from the query name: the resolved name is a byte-identical prefix of the
incoming name (no case folding), followed only by dots, and keeps no trailing
dot. -/
theorem claim_C10_exact_cache_keys :
    (∀ c t d1 d2 ip, d1 ≠ d2 → dictGet (DnsCache.set c t d1 ip) d2 = dictGet c d2) ∧
    (∀ c now t d1 d2 ip, d1 ≠ d2 →
      (DnsCache.get (DnsCache.set c t d1 ip) now d2).1 = (DnsCache.get c now d2).1) ∧
    (∀ s : String, ∃ n, s.data = (strip_trailing_dots s).data ++ List.replicate n '.') ∧
    (∀ s : String, (strip_trailing_dots s).data.getLast? ≠ some '.') := by
  have hset : ∀ (c : List (String × (String × Nat))) t d1 d2 ip, d1 ≠ d2 →
      dictGet (DnsCache.set c t d1 ip) d2 = dictGet c d2 := by
    intro c t d1 d2 ip h
    unfold DnsCache.set
    exact dictGet_dictSet_ne c d1 d2 (ip, t) h
  refine ⟨hset, ?_, ?_, ?_⟩
  · intro c now t d1 d2 ip h
    unfold DnsCache.get
    rw [hset c t d1 d2 ip h]
    split
    · split <;> rfl
    · rfl
  · intro s
    refine ⟨(s.data.reverse.takeWhile fun c => c == '.').length, ?_⟩
    unfold strip_trailing_dots
    simp only
    conv_lhs => rw [← s.data.reverse_reverse,
      ← List.takeWhile_append_dropWhile (p := fun c => c == '.') (l := s.data.reverse)]
    rw [List.reverse_append]
    congr 1
    rw [← List.reverse_replicate]
    congr 1
    apply List.eq_replicate_of_mem
    intro b hb
    have := List.mem_takeWhile_imp hb
    simpa using this
  · intro s
    unfold strip_trailing_dots
    simp only [List.getLast?_reverse]
    intro h
    have := head?_dropWhile_not (fun c => c == '.') _ _ h
    simp at this

theorem an_ne_nil_of_aAnswers_ne_nil (l : List RR) (h : aAnswers l ≠ []) : l ≠ [] := by
  intro he
  subst he
  simp [aAnswers] at h

/-- C7: `resolve` always terminates with bounded work: a call with
`depth > max_depth` fails immediately without touching the state or the
network, the total number of network queries of the whole activation tree is
bounded by `queryBound` of the remaining depth budget, and exhausting the hop
loop produces the deterministic iteration-limit failure record. -/
theorem claim_C7_termination_bounds :
    (∀ env domain orig? depth max_depth st, depth > max_depth →
      resolve_iteratively env domain orig? depth max_depth st = (none, st)) ∧
    (∀ env domain orig? depth max_depth st,
      ((resolve_iteratively env domain orig? depth max_depth st).2).query_count ≤
        st.query_count + queryBound (max_depth + 1 - depth) max_depth) ∧
    (∀ env recurse domain original_domain cur sv ts st,
      resolveLoop env recurse domain original_domain 0 cur sv ts st =
        (none, logStep st
          ⟨st.clock, domain, "Iterative (Failed)", cur, get_step_type cur,
           "Iteration limit reached", 0, some (st.clock - ts), "MISS"⟩)) := by
  refine ⟨?_, ?_, ?_⟩
  · intro env domain orig? depth max_depth st h
    unfold resolve_iteratively
    rw [show max_depth + 1 - depth = 0 by omega]
    rfl
  · intro env domain orig? depth max_depth st
    exact resolveAux_qc env _ domain orig? depth max_depth st
  · intro env recurse domain original_domain cur sv ts st
    rfl

/-- C9: for a decoded query with a question section, a successful resolution
is answered with the original ID, QR=1, AA=1, RCODE=0 and the resolution's
answer records, while every failed resolution is answered with QR=1 and
RCODE=2 (SERVFAIL), echoing the question with no answers. -/
theorem claim_C9_server_response :
    ∀ env query_id qname max_depth st,
      (∀ resp st2,
        resolve_iteratively env (strip_trailing_dots qname) none 0 max_depth st =
          (some resp, st2) →
        handle_query env query_id qname max_depth st =
          (⟨query_id, 1, 1, 0, 0, qname, resp.an⟩, st2)) ∧
      (∀ st2,
        resolve_iteratively env (strip_trailing_dots qname) none 0 max_depth st =
          (none, st2) →
        handle_query env query_id qname max_depth st =
          (⟨query_id, 1, 0, 0, 2, qname, []⟩, st2)) := by
  intro env query_id qname max_depth st
  constructor
  · intro resp st2 h
    have hA : aAnswers resp.an ≠ [] := by
      apply resolveAux_someA env (max_depth + 1 - 0) (strip_trailing_dots qname) none 0
        max_depth st resp
      rw [show resolveAux env (max_depth + 1 - 0) (strip_trailing_dots qname) none 0
        max_depth st = resolve_iteratively env (strip_trailing_dots qname) none 0
        max_depth st from rfl, h]
    have hne := an_ne_nil_of_aAnswers_ne_nil _ hA
    simp only [handle_query, h, build_response]
    rw [if_pos]
    simpa using hne
  · intro st2 h
    simp only [handle_query, h, build_response]

theorem DnsCache.get_hit (c : List (String × (String × Nat))) (now : Nat) (d ip : String)
    (t : Nat) (hg : dictGet c d = some (ip, t)) (hf : now - t < CACHE_TTL_SECONDS) :
    DnsCache.get c now d = ((some ip, "HIT"), c) := by
  unfold DnsCache.get
  rw [hg]
  simp [hf]

theorem DnsCache.get_some_snd (c : List (String × (String × Nat))) (now : Nat) (d : String)
    (ip : String) (h : (DnsCache.get c now d).1.1 = some ip) :
    (DnsCache.get c now d).2 = c := by
  rcases hg : dictGet c d with - | ⟨ip2, t⟩
  · simp only [DnsCache.get, hg]
  · simp only [DnsCache.get, hg] at h ⊢
    by_cases hf : now - t < CACHE_TTL_SECONDS
    · simp [hf]
    · simp [hf] at h

theorem DnsCache.get_miss_no_entry (c : List (String × (String × Nat))) (now : Nat)
    (d : String) (hnd : (c.map Prod.fst).Nodup)
    (hn : (DnsCache.get c now d).1.1 = none) :
    ∀ v, dictGet (DnsCache.get c now d).2 d = some v → dictGet c d = some v := by
  intro v hv
  rcases hg : dictGet c d with - | ⟨ip2, t⟩
  · simp only [DnsCache.get, hg] at hv
    exact hv
  · simp only [DnsCache.get, hg] at hn hv
    by_cases hf : now - t < CACHE_TTL_SECONDS
    · simp [hf] at hn
    · simp only [hf, if_false] at hv
      rw [dictGet_dictDel_self_of_nodup c d hnd] at hv
      exact absurd hv (by simp)

/-- C2 (amended): the `depth > max_depth` guard precedes the cache check, so
only calls within the depth budget take the cached fast path; for those, a
fresh cache entry (with the nonempty address the resolver stores) is returned
immediately: no network query, one Cached/HIT log record with zero round trip
time, and untouched cache. -/
theorem claim_C2_cache_hit_fast_path :
    ∀ env domain orig? depth max_depth st ip t,
      depth ≤ max_depth →
      dictGet st.cache domain = some (ip, t) →
      st.clock - t < CACHE_TTL_SECONDS →
      ip ≠ "" →
      resolve_iteratively env domain orig? depth max_depth st =
        (some ⟨[⟨domain, 1, ip⟩], [], []⟩,
         { st with
             log := st.log ++ [⟨st.clock, domain, "Iterative (Cached)", "N/A", "Cache",
               "Answer: " ++ ip, 0, some 0, "HIT"⟩],
             plot_data := (record_plot_data st.plot_data st.unique_count domain 1 0).1,
             unique_count := (record_plot_data st.plot_data st.unique_count domain 1 0).2 }) := by
  intro env domain orig? depth max_depth st ip t hd hg hf hip
  unfold resolve_iteratively
  rw [show max_depth + 1 - depth = (max_depth - depth) + 1 by omega]
  simp only [resolveAux, DnsCache.get_hit st.cache st.clock domain ip t hg hf]
  rw [show (ip == "") = false by simpa using hip]
  simp only [Bool.false_eq_true, if_false, Nat.sub_self]
  rfl

/-- Environment with no network replies at all. -/
def envNone : NetEnv := ⟨fun _ _ _ => none, fun _ => 1⟩

/-- A resolver state whose cache holds a fresh entry for example.com
(inserted at time 0, read at clock 10, well within the 3600s TTL). -/
def stFreshExample : RState :=
  ⟨[("example.com", ("1.2.3.4", 0))], [], [], 0, 10, 0⟩

/-- C2 counterexample: a nested call at depth 11 > max_depth 10 whose domain
has a fresh cache entry fails immediately — the state (log included) is
untouched and no cached answer is produced, because the depth guard runs
before the cache check. -/
theorem claim_C2_counterexample :
    resolve_iteratively envNone "example.com" none 11 10 stFreshExample =
      (none, stFreshExample) ∧
    (resolve_iteratively envNone "example.com" none 11 10 stFreshExample).1 ≠
      some ⟨[⟨"example.com", 1, "1.2.3.4"⟩], [], []⟩ := by
  constructor
  · rfl
  · decide

/-- C2 witness: the amended fast path evaluated at a concrete fresh entry. -/
theorem claim_C2_witness :
    resolve_iteratively envNone "example.com" none 3 10 stFreshExample =
      (some ⟨[⟨"example.com", 1, "1.2.3.4"⟩], [], []⟩,
       ⟨[("example.com", ("1.2.3.4", 0))],
        [⟨10, "example.com", "Iterative (Cached)", "N/A", "Cache", "Answer: 1.2.3.4", 0,
          some 0, "HIT"⟩],
        [("example.com", (1, 0))], 1, 10, 0⟩) :=
  claim_C2_cache_hit_fast_path envNone "example.com" none 3 10 stFreshExample "1.2.3.4" 0
    (by decide) (by decide) (by decide) (by decide)

theorem DnsCache.get_miss_entry_cases (c : List (String × (String × Nat))) (now : Nat)
    (d : String) (hnd : (c.map Prod.fst).Nodup)
    (hn : (DnsCache.get c now d).1.1 = none) :
    dictGet (DnsCache.get c now d).2 d = dictGet c d ∨
      dictGet (DnsCache.get c now d).2 d = none := by
  rcases hg : dictGet c d with - | ⟨ip2, t⟩
  · exact Or.inl (by simp [DnsCache.get, hg])
  · simp only [DnsCache.get, hg] at hn ⊢
    by_cases hf : now - t < CACHE_TTL_SECONDS
    · simp [hf] at hn
    · simp only [hf, if_false]
      exact Or.inr (dictGet_dictDel_self_of_nodup c d hnd)

/-- C5: a hop without a usable reply (timeout or invalid DNS payload, both
modelled as `none`) makes the resolution fail with one Query-Failed log
record; and a failing top-level resolution never writes a cache entry for the
queried domain: afterwards its entry is what it was before, or absent (lazy
expiry of a stale entry being the only removal). -/
theorem claim_C5_timeout_no_cache_write :
    (∀ env (recurse : String → RState → Option DnsResp × RState)
       (domain original_domain cur : String) (hops sv ts : Nat) (st : RState),
      env.resp st.query_count cur domain = none →
      resolveLoop env recurse domain original_domain (hops + 1) cur sv ts st =
        (none, logStep (afterQuery env st)
          ⟨st.clock + env.rtt st.query_count, domain, "Iterative (Query Failed)", cur,
           get_step_type cur, "Timeout or invalid response", env.rtt st.query_count,
           none, "MISS"⟩)) ∧
    (∀ env (domain : String) (max_depth : Nat) (st : RState),
      (st.cache.map Prod.fst).Nodup →
      (resolve_iteratively env domain none 0 max_depth st).1 = none →
      dictGet ((resolve_iteratively env domain none 0 max_depth st).2).cache domain =
          dictGet st.cache domain ∨
        dictGet ((resolve_iteratively env domain none 0 max_depth st).2).cache domain =
          none) := by
  constructor
  · intro env recurse domain original_domain cur hops sv ts st h
    simp only [resolveLoop,
      resolveHop_timeout env recurse domain original_domain cur sv ts st h]
  · intro env domain max_depth st hnd hfail
    unfold resolve_iteratively at hfail ⊢
    rw [Nat.sub_zero] at hfail ⊢
    simp only [resolveAux, Option.getD_none] at hfail ⊢
    have hHrec : ∀ ns st1, ns ≠ domain →
        dictGet ((resolveAux env max_depth ns (some domain) (0 + 1) max_depth st1).2).cache
          domain = dictGet st1.cache domain := by
      intro ns st1 hne
      exact resolveAux_cache_pres_ne env max_depth ns domain (0 + 1) max_depth st1 hne
    rcases hs : (DnsCache.get st.cache st.clock domain).1.1 with - | ip
    · simp only [hs] at hfail ⊢
      have hpres := resolveLoop_cache_pres env
        (fun ns st2 => resolveAux env max_depth ns (some domain) (0 + 1) max_depth st2)
        domain domain domain hHrec max_depth ROOT_SERVER_IP 0 st.clock
        { st with cache := (DnsCache.get st.cache st.clock domain).2 } (Or.inl hfail)
      rw [hpres]
      simp only
      exact DnsCache.get_miss_entry_cases st.cache st.clock domain hnd hs
    · simp only [hs] at hfail ⊢
      split at hfail
      · rename_i hcond
        rw [if_pos hcond]
        have hsnd := DnsCache.get_some_snd st.cache st.clock domain ip hs
        have hpres := resolveLoop_cache_pres env
          (fun ns st2 => resolveAux env max_depth ns (some domain) (0 + 1) max_depth st2)
          domain domain domain hHrec max_depth ROOT_SERVER_IP 0 st.clock
          { st with cache := (DnsCache.get st.cache st.clock domain).2 } (Or.inl hfail)
        rw [hpres]
        simp only
        rw [hsnd]
        exact Or.inl rfl
      · simp at hfail

/-- C1: a delegation walk whose first `k - 1` responses are glue-supplied
referrals and whose `k`-th response carries an A answer resolves to the first
A record of that answer, logs a Resolved record, caches the address, counts
`k` contacted servers (query count and plot datum), all within
`k ≤ max_depth` hops. -/
theorem claim_C1_delegation_chain_resolves :
    ∀ env (domain : String) (max_depth : Nat) (st : RState) (srv : Nat → String)
      (k : Nat) (ans : DnsResp) (final_ip : String) (tl : List String),
      1 ≤ k → k ≤ max_depth →
      dictGet st.cache domain = none →
      srv 0 = ROOT_SERVER_IP →
      (∀ i, i + 1 < k → ∃ r, env.resp (st.query_count + i) (srv i) domain = some r ∧
        aAnswers r.an = [] ∧ nsNames r.ns ≠ [] ∧ firstA r.ar = some (srv (i + 1))) →
      env.resp (st.query_count + (k - 1)) (srv (k - 1)) domain = some ans →
      aAnswers ans.an = final_ip :: tl →
      ∃ st', resolve_iteratively env domain none 0 max_depth st = (some ans, st') ∧
        st'.query_count = st.query_count + k ∧
        dictGet st'.cache domain = some (final_ip, st'.clock) ∧
        (∃ pre rec, st'.log = st.log ++ pre ++ [rec] ∧
          rec.resolution_mode = "Iterative (Resolved)" ∧
          rec.response_or_referral = "Answer: " ++ final_ip ∧
          rec.dns_server_ip = srv (k - 1)) ∧
        (dictGet st.plot_data domain = none → st.unique_count < max_domains_for_plot →
          dictGet st'.plot_data domain = some (k, st'.clock - st.clock)) := by
  intro env domain max_depth st srv k ans final_ip tl hk1 hkm hmiss hsrv0 href hans hansA
  unfold resolve_iteratively
  rw [Nat.sub_zero]
  have hget : DnsCache.get st.cache st.clock domain = ((none, "MISS"), st.cache) := by
    unfold DnsCache.get
    rw [hmiss]
  simp only [resolveAux, Option.getD_none, hget]
  rw [← hsrv0]
  obtain ⟨st', hloop, hqc, hcache, hlog, hplot, hcnt⟩ :=
    resolveLoop_chain env
      (fun ns st2 => resolveAux env max_depth ns (some domain) (0 + 1) max_depth st2)
      domain domain ans final_ip tl (k - 1) srv max_depth 0 st (by omega)
      (fun i hi => href i (by omega))
      hans hansA st.clock
  refine ⟨st', hloop, by omega, ?_, hlog, ?_⟩
  · rw [hcache]
    unfold DnsCache.set
    exact dictGet_dictSet_self _ _ _
  · intro hpd hcap
    rw [show 0 + (k - 1) + 1 = k by omega] at hplot
    rw [hplot]
    unfold record_plot_data
    rw [if_pos ⟨hpd, hcap⟩]
    exact dictGet_append_self st.plot_data domain (k, st'.clock - st.clock) hpd

/-- Empty start state. -/
def stEmpty : RState := ⟨[], [], [], 0, 0, 0⟩

/-- Referral whose additional-section A record belongs to `other.net`, not to
the delegated name server `ns1.com`. -/
def refRespC4 : DnsResp := ⟨[], [⟨"com", 2, "ns1.com"⟩], [⟨"other.net", 1, "7.7.7.7"⟩]⟩

def ansRespC4 : DnsResp := ⟨[⟨"a.com", 1, "1.2.3.4"⟩], [], []⟩

/-- The answer is only served at `7.7.7.7` — the owner-mismatched glue. -/
def envC4 : NetEnv :=
  ⟨fun i s _ => if i == 0 then some refRespC4
    else if i == 1 && s == "7.7.7.7" then some ansRespC4 else none,
   fun _ => 1⟩

/-- C4 counterexample: the referral's only additional A record names an owner
different from the NS target, yet the resolver still uses its address as glue:
the second query goes to `7.7.7.7` (the environment answers nowhere else) and
resolution succeeds after two hops. -/
theorem claim_C4_counterexample :
    (refRespC4.ar.all fun rr => rr.rrname != "ns1.com") = true ∧
    nsNames refRespC4.ns = ["ns1.com"] ∧
    (resolve_iteratively envC4 "a.com" none 0 10 stEmpty).1 = some ansRespC4 ∧
    (resolve_iteratively envC4 "a.com" none 0 10 stEmpty).2.query_count = 2 ∧
    dictGet ((resolve_iteratively envC4 "a.com" none 0 10 stEmpty).2).cache "a.com" =
      some ("1.2.3.4", 2) := by
  refine ⟨by decide, by decide, by decide, by decide, by decide⟩

/-- C4 (amended): the glue used as the next server is the rdata of the
**first A record of the additional section, irrespective of its owner name**
(no matching against the NS target); with such a record present, a Delegation
step naming that glue is logged and the hop loop continues by querying the
glue address. -/
theorem claim_C4_first_additional_a_is_glue :
    ∀ env (domain : String) (max_depth : Nat) (st : RState) (r : DnsResp) (f : String)
      (fs : List String) (g : String) (ans : DnsResp) (final_ip : String)
      (tl : List String),
      2 ≤ max_depth →
      dictGet st.cache domain = none →
      env.resp st.query_count ROOT_SERVER_IP domain = some r →
      aAnswers r.an = [] →
      nsNames r.ns = f :: fs →
      firstA r.ar = some g →
      env.resp (st.query_count + 1) g domain = some ans →
      aAnswers ans.an = final_ip :: tl →
      ∃ st', resolve_iteratively env domain none 0 max_depth st = (some ans, st') ∧
        st'.query_count = st.query_count + 2 ∧
        dictGet st'.cache domain = some (final_ip, st'.clock) ∧
        (∃ recD, recD ∈ st'.log ∧ recD.resolution_mode = "Iterative (Delegation)" ∧
          recD.response_or_referral =
            "Delegation to: " ++ String.intercalate ", " (nsNames r.ns) ++
              " @ Glue IP: " ++ g) := by
  intro env domain max_depth st r f fs g ans final_ip tl hm hmiss hr hanoA hns hglue
    hnext hansA
  unfold resolve_iteratively
  rw [Nat.sub_zero]
  have hget : DnsCache.get st.cache st.clock domain = ((none, "MISS"), st.cache) := by
    unfold DnsCache.get
    rw [hmiss]
  simp only [resolveAux, Option.getD_none, hget]
  obtain ⟨m, rfl⟩ : ∃ m, max_depth = m + 2 := ⟨max_depth - 2, by omega⟩
  have hhop1 := resolveHop_glue env
    (fun ns st2 => resolveAux env (m + 2) ns (some domain) (0 + 1) (m + 2) st2)
    domain domain ROOT_SERVER_IP 0 st.clock st r f fs g hr hanoA hns hglue
  have hl1 : resolveLoop env
      (fun ns st2 => resolveAux env (m + 2) ns (some domain) (0 + 1) (m + 2) st2)
      domain domain (m + 2) ROOT_SERVER_IP 0 st.clock st =
      resolveLoop env
        (fun ns st2 => resolveAux env (m + 2) ns (some domain) (0 + 1) (m + 2) st2)
        domain domain (m + 1) g (0 + 1) st.clock
        (logStep (afterQuery env st)
          ⟨st.clock + env.rtt st.query_count, domain, "Iterative (Delegation)",
           ROOT_SERVER_IP, get_step_type ROOT_SERVER_IP,
           "Delegation to: " ++ String.intercalate ", " (nsNames r.ns) ++
             " @ Glue IP: " ++ g,
           env.rtt st.query_count, none, "MISS"⟩) := by
    simp only [resolveLoop, hhop1]
  set st2 := logStep (afterQuery env st)
    ⟨st.clock + env.rtt st.query_count, domain, "Iterative (Delegation)",
     ROOT_SERVER_IP, get_step_type ROOT_SERVER_IP,
     "Delegation to: " ++ String.intercalate ", " (nsNames r.ns) ++ " @ Glue IP: " ++ g,
     env.rtt st.query_count, none, "MISS"⟩ with hst2
  have hq2 : st2.query_count = st.query_count + 1 := by
    rw [hst2]; simp [logStep, afterQuery]
  have hnext2 : env.resp st2.query_count g domain = some ans := by rw [hq2]; exact hnext
  have hhop2 := resolveHop_answer env
    (fun ns st2 => resolveAux env (m + 2) ns (some domain) (0 + 1) (m + 2) st2)
    domain domain g (0 + 1) st.clock st2 ans final_ip tl hnext2 hansA
  have hl2 : resolveLoop env
      (fun ns st2 => resolveAux env (m + 2) ns (some domain) (0 + 1) (m + 2) st2)
      domain domain (m + 1) g (0 + 1) st.clock st2 =
      (some ans,
       recordPlot
         { logStep (afterQuery env st2)
             ⟨st2.clock + env.rtt st2.query_count, domain, "Iterative (Resolved)", g,
              "Authoritative", "Answer: " ++ final_ip, env.rtt st2.query_count,
              some (st2.clock + env.rtt st2.query_count - st.clock), "MISS"⟩ with
           cache := DnsCache.set st2.cache (st2.clock + env.rtt st2.query_count) domain
             final_ip }
         domain (0 + 1 + 1) (st2.clock + env.rtt st2.query_count - st.clock)) := by
    simp only [resolveLoop, hhop2]
  refine ⟨_, by rw [hl1, hl2], ?_, ?_, ?_⟩
  · simp only [recordPlot, logStep, afterQuery]
    omega
  · simp only [recordPlot, logStep]
    exact dictGet_dictSet_self _ _ _
  · refine ⟨⟨st.clock + env.rtt st.query_count, domain, "Iterative (Delegation)",
      ROOT_SERVER_IP, get_step_type ROOT_SERVER_IP,
      "Delegation to: " ++ String.intercalate ", " (nsNames r.ns) ++ " @ Glue IP: " ++ g,
      env.rtt st.query_count, none, "MISS"⟩, ?_, rfl, rfl⟩
    simp only [recordPlot, logStep, hst2, afterQuery]
    simp

/-- Referral for `a.com` delegating to `ns.b.com` without glue. -/
def refRespC3 : DnsResp := ⟨[], [⟨"a.com", 2, "ns.b.com"⟩], []⟩

/-- Nested answer for `ns.b.com` whose **first** answer record is a CNAME
(type 5); the A record follows it. -/
def ansRespC3 : DnsResp := ⟨[⟨"ns.b.com", 5, "cn.b.com"⟩, ⟨"ns.b.com", 1, "9.9.9.9"⟩], [], []⟩

def envC3 : NetEnv :=
  ⟨fun i _ _ => if i == 0 then some refRespC3 else if i == 1 then some ansRespC3 else none,
   fun _ => 1⟩

/-- C3 counterexample: the nested NS resolution *succeeds* — it returns and
caches the address 9.9.9.9 for `ns.b.com` — but because the first record of
its answer section is not of type A, the outer resolution fails right there
(only 2 queries ever sent; the hop loop does not continue), contradicting
"whenever that nested call yields an address the hop loop continues". -/
theorem claim_C3_counterexample :
    (resolve_iteratively envC3 "ns.b.com" (some "a.com") 1 10
        ⟨[], [], [], 0, 0, 1⟩).1 = some ansRespC3 ∧
    (resolve_iteratively envC3 "a.com" none 0 10 stEmpty).1 = none ∧
    (resolve_iteratively envC3 "a.com" none 0 10 stEmpty).2.query_count = 2 ∧
    dictGet ((resolve_iteratively envC3 "a.com" none 0 10 stEmpty).2).cache "ns.b.com" =
      some ("9.9.9.9", 2) ∧
    dictGet ((resolve_iteratively envC3 "a.com" none 0 10 stEmpty).2).cache "a.com" =
      none := by
  refine ⟨by decide, by decide, by decide, by decide, by decide⟩

/-- C3 (amended): with NS records and no glue — if the first NS target equals
`original_domain`, resolve fails at once with a failed-delegation record and
no further network traffic; otherwise it recurses at `depth + 1`, and the hop
loop continues from the nested address **only when the nested response's
first answer record is an A record**; a nested failure, or a nested success
whose first answer record is not type A, makes the outer resolution fail with
a failed-delegation record. -/
theorem claim_C3_noglue_fallback :
    (∀ env (domain : String) (max_depth : Nat) (st : RState) (r : DnsResp) (f : String)
       (fs : List String),
      1 ≤ max_depth →
      dictGet st.cache domain = none →
      env.resp st.query_count ROOT_SERVER_IP domain = some r →
      aAnswers r.an = [] →
      nsNames r.ns = f :: fs →
      firstA r.ar = none →
      f = domain →
      resolve_iteratively env domain none 0 max_depth st =
        (none, logStep (afterQuery env st)
          ⟨st.clock + env.rtt st.query_count, domain, "Iterative (Failed delegation)",
           ROOT_SERVER_IP, get_step_type ROOT_SERVER_IP,
           "No glue IP and NS same as original domain", env.rtt st.query_count, none,
           "MISS"⟩)) ∧
    (∀ env (domain : String) (max_depth : Nat) (st : RState) (r : DnsResp) (f : String)
       (fs : List String) (tr : DnsResp) (st2 : RState) (a0 : RR) (atl : List RR)
       (ans : DnsResp) (final_ip : String) (tl : List String),
      2 ≤ max_depth →
      dictGet st.cache domain = none →
      env.resp st.query_count ROOT_SERVER_IP domain = some r →
      aAnswers r.an = [] →
      nsNames r.ns = f :: fs →
      firstA r.ar = none →
      f ≠ domain →
      resolve_iteratively env f (some domain) 1 max_depth (afterQuery env st) =
        (some tr, st2) →
      tr.an = a0 :: atl →
      a0.rtype = 1 →
      env.resp st2.query_count a0.rdata domain = some ans →
      aAnswers ans.an = final_ip :: tl →
      ∃ st', resolve_iteratively env domain none 0 max_depth st = (some ans, st') ∧
        st'.query_count = st2.query_count + 1 ∧
        dictGet st'.cache domain = some (final_ip, st'.clock)) ∧
    (∀ env (domain : String) (max_depth : Nat) (st : RState) (r : DnsResp) (f : String)
       (fs : List String) (rr : Option DnsResp) (st2 : RState),
      1 ≤ max_depth →
      dictGet st.cache domain = none →
      env.resp st.query_count ROOT_SERVER_IP domain = some r →
      aAnswers r.an = [] →
      nsNames r.ns = f :: fs →
      firstA r.ar = none →
      f ≠ domain →
      resolve_iteratively env f (some domain) 1 max_depth (afterQuery env st) =
        (rr, st2) →
      nestedOk rr = false →
      resolve_iteratively env domain none 0 max_depth st =
        (none, logStep st2
          ⟨st.clock + env.rtt st.query_count, domain, "Iterative (Failed delegation)",
           ROOT_SERVER_IP, get_step_type ROOT_SERVER_IP,
           "Failed to resolve next NS IP: " ++ f, env.rtt st.query_count, none,
           "MISS"⟩)) := by
  refine ⟨?_, ?_, ?_⟩
  · intro env domain max_depth st r f fs hm hmiss hr hanoA hns hglue hf
    unfold resolve_iteratively
    rw [Nat.sub_zero]
    have hget : DnsCache.get st.cache st.clock domain = ((none, "MISS"), st.cache) := by
      unfold DnsCache.get
      rw [hmiss]
    simp only [resolveAux, Option.getD_none, hget]
    obtain ⟨m, rfl⟩ : ∃ m, max_depth = m + 1 := ⟨max_depth - 1, by omega⟩
    have hhop := resolveHop_noglue_self env
      (fun ns st2 => resolveAux env (m + 1) ns (some domain) (0 + 1) (m + 1) st2)
      domain domain ROOT_SERVER_IP 0 st.clock st r f fs hr hanoA hns hglue hf
    simp only [resolveLoop, hhop]
  · intro env domain max_depth st r f fs tr st2 a0 atl ans final_ip tl hm hmiss hr hanoA
      hns hglue hf hnested han ha0 hnext hansA
    unfold resolve_iteratively
    rw [Nat.sub_zero]
    have hget : DnsCache.get st.cache st.clock domain = ((none, "MISS"), st.cache) := by
      unfold DnsCache.get
      rw [hmiss]
    simp only [resolveAux, Option.getD_none, hget]
    obtain ⟨m, rfl⟩ : ∃ m, max_depth = m + 2 := ⟨max_depth - 2, by omega⟩
    have hrec : (fun ns st3 => resolveAux env (m + 2) ns (some domain) (0 + 1) (m + 2) st3)
        f (afterQuery env st) = (some tr, st2) := by
      show resolveAux env (m + 2) f (some domain) (0 + 1) (m + 2) (afterQuery env st) =
        (some tr, st2)
      rw [show resolveAux env (m + 2) f (some domain) (0 + 1) (m + 2) (afterQuery env st) =
        resolve_iteratively env f (some domain) 1 (m + 2) (afterQuery env st) from by
          unfold resolve_iteratively
          rw [Nat.add_sub_cancel]]
      exact hnested
    have hhop1 := resolveHop_noglue_continue env
      (fun ns st3 => resolveAux env (m + 2) ns (some domain) (0 + 1) (m + 2) st3)
      domain domain ROOT_SERVER_IP 0 st.clock st r f fs tr st2 a0 atl hr hanoA hns hglue
      hf hrec han ha0
    have hl1 : resolveLoop env
        (fun ns st3 => resolveAux env (m + 2) ns (some domain) (0 + 1) (m + 2) st3)
        domain domain (m + 2) ROOT_SERVER_IP 0 st.clock st =
        resolveLoop env
          (fun ns st3 => resolveAux env (m + 2) ns (some domain) (0 + 1) (m + 2) st3)
          domain domain (m + 1) a0.rdata (0 + 1) st.clock
          (logStep st2
            ⟨st.clock + env.rtt st.query_count, domain, "Iterative (Delegation)",
             ROOT_SERVER_IP, get_step_type ROOT_SERVER_IP, "Timeout or invalid response",
             env.rtt st.query_count, none, "MISS"⟩) := by
      simp only [resolveLoop, hhop1]
    have hnext2 : env.resp (logStep st2
        ⟨st.clock + env.rtt st.query_count, domain, "Iterative (Delegation)",
         ROOT_SERVER_IP, get_step_type ROOT_SERVER_IP, "Timeout or invalid response",
         env.rtt st.query_count, none, "MISS"⟩).query_count a0.rdata domain = some ans :=
      hnext
    have hhop2 := resolveHop_answer env
      (fun ns st3 => resolveAux env (m + 2) ns (some domain) (0 + 1) (m + 2) st3)
      domain domain a0.rdata (0 + 1) st.clock
      (logStep st2
        ⟨st.clock + env.rtt st.query_count, domain, "Iterative (Delegation)",
         ROOT_SERVER_IP, get_step_type ROOT_SERVER_IP, "Timeout or invalid response",
         env.rtt st.query_count, none, "MISS"⟩)
      ans final_ip tl hnext2 hansA
    refine ⟨_, by rw [hl1]; simp only [resolveLoop, hhop2]; rfl, ?_, ?_⟩
    · simp only [recordPlot, logStep, afterQuery]
    · simp only [recordPlot, logStep]
      exact dictGet_dictSet_self _ _ _
  · intro env domain max_depth st r f fs rr st2 hm hmiss hr hanoA hns hglue hf hnested
      hbad
    unfold resolve_iteratively
    rw [Nat.sub_zero]
    have hget : DnsCache.get st.cache st.clock domain = ((none, "MISS"), st.cache) := by
      unfold DnsCache.get
      rw [hmiss]
    simp only [resolveAux, Option.getD_none, hget]
    obtain ⟨m, rfl⟩ : ∃ m, max_depth = m + 1 := ⟨max_depth - 1, by omega⟩
    have hrec : (fun ns st3 => resolveAux env (m + 1) ns (some domain) (0 + 1) (m + 1) st3)
        f (afterQuery env st) = (rr, st2) := by
      show resolveAux env (m + 1) f (some domain) (0 + 1) (m + 1) (afterQuery env st) =
        (rr, st2)
      rw [show resolveAux env (m + 1) f (some domain) (0 + 1) (m + 1) (afterQuery env st) =
        resolve_iteratively env f (some domain) 1 (m + 1) (afterQuery env st) from by
          unfold resolve_iteratively
          rw [Nat.add_sub_cancel]]
      exact hnested
    have hhop := resolveHop_noglue_fail env
      (fun ns st3 => resolveAux env (m + 1) ns (some domain) (0 + 1) (m + 1) st3)
      domain domain ROOT_SERVER_IP 0 st.clock st r f fs rr st2 hr hanoA hns hglue hf hrec
      hbad
    simp only [resolveLoop, hhop]

/-! ### Concrete environments and witnesses -/

def refW1 : DnsResp := ⟨[], [⟨"com", 2, "a.gtld.net"⟩], [⟨"a.gtld.net", 1, "192.5.6.30"⟩]⟩

def ansW1 : DnsResp := ⟨[⟨"example.com", 1, "93.184.216.34"⟩], [], []⟩

def envW1 : NetEnv :=
  ⟨fun i s _ => if i == 0 then some refW1
    else if i == 1 && s == "192.5.6.30" then some ansW1 else none,
   fun _ => 1⟩

def srvW1 : Nat → String := fun i => if i == 0 then ROOT_SERVER_IP else "192.5.6.30"

theorem claim_C1_witness :
    ∃ st', resolve_iteratively envW1 "example.com" none 0 10 stEmpty =
        (some ansW1, st') ∧
      st'.query_count = stEmpty.query_count + 2 ∧
      dictGet st'.cache "example.com" = some ("93.184.216.34", st'.clock) ∧
      (∃ pre rec, st'.log = stEmpty.log ++ pre ++ [rec] ∧
        rec.resolution_mode = "Iterative (Resolved)" ∧
        rec.response_or_referral = "Answer: " ++ "93.184.216.34" ∧
        rec.dns_server_ip = srvW1 (2 - 1)) ∧
      (dictGet stEmpty.plot_data "example.com" = none →
        stEmpty.unique_count < max_domains_for_plot →
        dictGet st'.plot_data "example.com" = some (2, st'.clock - stEmpty.clock)) :=
  claim_C1_delegation_chain_resolves envW1 "example.com" 10 stEmpty srvW1 2 ansW1
    "93.184.216.34" [] (by decide) (by decide) (by decide) (by decide)
    (by
      intro i hi
      have h0 : i = 0 := by omega
      subst h0
      exact ⟨refW1, by decide, by decide, by decide, by decide⟩)
    (by decide) (by decide)

def envC3a : NetEnv :=
  ⟨fun i _ _ => if i == 0 then some (⟨[], [⟨"a.com", 2, "a.com"⟩], []⟩ : DnsResp) else none,
   fun _ => 1⟩

def refRespC3b : DnsResp := ⟨[], [⟨"a.com", 2, "ns.b.com"⟩], []⟩

def nsAnsC3b : DnsResp := ⟨[⟨"ns.b.com", 1, "9.9.9.9"⟩], [], []⟩

def ansC3b : DnsResp := ⟨[⟨"a.com", 1, "5.5.5.5"⟩], [], []⟩

def envC3b : NetEnv :=
  ⟨fun i s _ => if i == 0 then some refRespC3b
    else if i == 1 then some nsAnsC3b
    else if i == 2 && s == "9.9.9.9" then some ansC3b else none,
   fun _ => 1⟩

def st2b : RState :=
  ⟨[("ns.b.com", ("9.9.9.9", 2))],
   [⟨2, "ns.b.com", "Iterative (Resolved)", "198.41.0.4", "Authoritative",
     "Answer: 9.9.9.9", 1, some 1, "MISS"⟩],
   [("ns.b.com", (1, 1))], 1, 2, 2⟩

def envC3c : NetEnv :=
  ⟨fun i _ _ => if i == 0 then some refRespC3b else none, fun _ => 1⟩

def st2c : RState :=
  ⟨[],
   [⟨2, "ns.b.com", "Iterative (Query Failed)", "198.41.0.4", "Root",
     "Timeout or invalid response", 1, none, "MISS"⟩],
   [], 0, 2, 2⟩

theorem claim_C3_witness :
    (resolve_iteratively envC3a "a.com" none 0 10 stEmpty =
      (none, logStep (afterQuery envC3a stEmpty)
        ⟨stEmpty.clock + envC3a.rtt stEmpty.query_count, "a.com",
         "Iterative (Failed delegation)", ROOT_SERVER_IP, get_step_type ROOT_SERVER_IP,
         "No glue IP and NS same as original domain", envC3a.rtt stEmpty.query_count,
         none, "MISS"⟩)) ∧
    (∃ st', resolve_iteratively envC3b "a.com" none 0 10 stEmpty = (some ansC3b, st') ∧
      st'.query_count = st2b.query_count + 1 ∧
      dictGet st'.cache "a.com" = some ("5.5.5.5", st'.clock)) ∧
    (resolve_iteratively envC3c "a.com" none 0 10 stEmpty =
      (none, logStep st2c
        ⟨stEmpty.clock + envC3c.rtt stEmpty.query_count, "a.com",
         "Iterative (Failed delegation)", ROOT_SERVER_IP, get_step_type ROOT_SERVER_IP,
         "Failed to resolve next NS IP: " ++ "ns.b.com",
         envC3c.rtt stEmpty.query_count, none, "MISS"⟩)) :=
  ⟨claim_C3_noglue_fallback.1 envC3a "a.com" 10 stEmpty ⟨[], [⟨"a.com", 2, "a.com"⟩], []⟩
     "a.com" [] (by decide) (by decide) (by decide) (by decide) (by decide) (by decide)
     (by decide),
   claim_C3_noglue_fallback.2.1 envC3b "a.com" 10 stEmpty refRespC3b "ns.b.com" []
     nsAnsC3b st2b ⟨"ns.b.com", 1, "9.9.9.9"⟩ [] ansC3b "5.5.5.5" [] (by decide)
     (by decide) (by decide) (by decide) (by decide) (by decide) (by decide) (by decide)
     (by decide) (by decide) (by decide) (by decide),
   claim_C3_noglue_fallback.2.2 envC3c "a.com" 10 stEmpty refRespC3b "ns.b.com" [] none
     st2c (by decide) (by decide) (by decide) (by decide) (by decide) (by decide)
     (by decide) (by decide) (by decide)⟩

theorem claim_C4_witness :
    ∃ st', resolve_iteratively envC4 "a.com" none 0 10 stEmpty = (some ansRespC4, st') ∧
      st'.query_count = stEmpty.query_count + 2 ∧
      dictGet st'.cache "a.com" = some ("1.2.3.4", st'.clock) ∧
      (∃ recD, recD ∈ st'.log ∧ recD.resolution_mode = "Iterative (Delegation)" ∧
        recD.response_or_referral =
          "Delegation to: " ++ String.intercalate ", " (nsNames refRespC4.ns) ++
            " @ Glue IP: " ++ "7.7.7.7") :=
  claim_C4_first_additional_a_is_glue envC4 "a.com" 10 stEmpty refRespC4 "ns1.com" []
    "7.7.7.7" ansRespC4 "1.2.3.4" [] (by decide) (by decide) (by decide) (by decide)
    (by decide) (by decide) (by decide) (by decide)

def recurseNone : String → RState → Option DnsResp × RState := fun _ st => (none, st)

theorem claim_C5_witness :
    (resolveLoop envNone recurseNone "a.com" "a.com" (9 + 1) ROOT_SERVER_IP 0 0 stEmpty =
      (none, logStep (afterQuery envNone stEmpty)
        ⟨stEmpty.clock + envNone.rtt stEmpty.query_count, "a.com",
         "Iterative (Query Failed)", ROOT_SERVER_IP, get_step_type ROOT_SERVER_IP,
         "Timeout or invalid response", envNone.rtt stEmpty.query_count, none,
         "MISS"⟩)) ∧
    (dictGet ((resolve_iteratively envNone "a.com" none 0 10 stEmpty).2).cache "a.com" =
        dictGet stEmpty.cache "a.com" ∨
      dictGet ((resolve_iteratively envNone "a.com" none 0 10 stEmpty).2).cache "a.com" =
        none) :=
  ⟨claim_C5_timeout_no_cache_write.1 envNone recurseNone "a.com" "a.com" ROOT_SERVER_IP
     9 0 0 stEmpty (by decide),
   claim_C5_timeout_no_cache_write.2 envNone "a.com" 10 stEmpty (by decide) (by decide)⟩

theorem claim_C6_witness :
    DnsCache.get [("a.com", ("1.2.3.4", 0))] 4000 "a.com" =
      ((none, "MISS"), dictDel [("a.com", ("1.2.3.4", 0))] "a.com") ∧
    dictGet (dictDel [("a.com", ("1.2.3.4", 0))] "a.com") "a.com" = none ∧
    ((DnsCache.get [("a.com", ("1.2.3.4", 0))] 100 "a.com").1.1 = some "1.2.3.4" ↔
      ∃ t, dictGet [("a.com", ("1.2.3.4", 0))] "a.com" = some ("1.2.3.4", t) ∧
        100 - t < CACHE_TTL_SECONDS) ∧
    dictGet (DnsCache.set [("a.com", ("1.2.3.4", 0))] 5 "a.com" "9.9.9.9") "a.com" =
      some ("9.9.9.9", 5) ∧
    dictGet (DnsCache.set [("a.com", ("1.2.3.4", 0))] 5 "a.com" "9.9.9.9") "b.com" =
      dictGet [("a.com", ("1.2.3.4", 0))] "b.com" :=
  ⟨claim_C6_cache_get_set.2.2.1 [("a.com", ("1.2.3.4", 0))] 4000 "a.com" "1.2.3.4" 0
     (by decide) (by decide),
   claim_C6_cache_get_set.2.2.2.1 [("a.com", ("1.2.3.4", 0))] "a.com" (by decide),
   claim_C6_cache_get_set.1 [("a.com", ("1.2.3.4", 0))] 100 "a.com" "1.2.3.4",
   claim_C6_cache_get_set.2.2.2.2.1 [("a.com", ("1.2.3.4", 0))] 5 "a.com" "9.9.9.9",
   claim_C6_cache_get_set.2.2.2.2.2 [("a.com", ("1.2.3.4", 0))] 5 "a.com" "9.9.9.9"
     "b.com" (by decide)⟩

theorem claim_C7_witness :
    resolve_iteratively envNone "a.com" none 11 10 stEmpty = (none, stEmpty) ∧
    ((resolve_iteratively envNone "a.com" none 0 10 stEmpty).2).query_count ≤
      stEmpty.query_count + queryBound (10 + 1 - 0) 10 ∧
    resolveLoop envNone recurseNone "a.com" "a.com" 0 ROOT_SERVER_IP 0 0 stEmpty =
      (none, logStep stEmpty
        ⟨stEmpty.clock, "a.com", "Iterative (Failed)", ROOT_SERVER_IP,
         get_step_type ROOT_SERVER_IP, "Iteration limit reached", 0,
         some (stEmpty.clock - 0), "MISS"⟩) :=
  ⟨claim_C7_termination_bounds.1 envNone "a.com" none 11 10 stEmpty (by decide),
   claim_C7_termination_bounds.2.1 envNone "a.com" none 0 10 stEmpty,
   claim_C7_termination_bounds.2.2 envNone recurseNone "a.com" "a.com" ROOT_SERVER_IP
     0 0 stEmpty⟩

theorem claim_C8_witness :
    record_plot_data [] 0 "a.com" 3 7 = ([("a.com", (3, 7))], 1) ∧
    record_plot_data [("a.com", (3, 7))] 10 "b.com" 1 1 = ([("a.com", (3, 7))], 10) ∧
    record_plot_data [("a.com", (3, 7))] 1 "a.com" 9 9 = ([("a.com", (3, 7))], 1) ∧
    dictGet (record_plot_data [("a.com", (3, 7))] 1 "b.com" 2 2).1 "a.com" =
      some (3, 7) ∧
    dictGet ((resolve_iteratively envNone "b.com" none 0 10
        ⟨[], [], [("a.com", (3, 7))], 1, 0, 0⟩).2).plot_data "a.com" = some (3, 7) :=
  ⟨claim_C8_plot_data_cap.1 [] 0 "a.com" 3 7 (by decide) (by decide),
   claim_C8_plot_data_cap.2.1 [("a.com", (3, 7))] 10 "b.com" 1 1 (Or.inr (by decide)),
   claim_C8_plot_data_cap.2.1 [("a.com", (3, 7))] 1 "a.com" 9 9 (Or.inl (by decide)),
   claim_C8_plot_data_cap.2.2.2.1 [("a.com", (3, 7))] 1 "b.com" 2 2 "a.com" (3, 7)
     (by decide),
   claim_C8_plot_data_cap.2.2.2.2 envNone "b.com" none 0 10
     ⟨[], [], [("a.com", (3, 7))], 1, 0, 0⟩ "a.com" (3, 7) (by decide)⟩

def ansW9 : DnsResp := ⟨[⟨"a.com", 1, "4.4.4.4"⟩], [], []⟩

def envW9 : NetEnv := ⟨fun i _ _ => if i == 0 then some ansW9 else none, fun _ => 1⟩

def stW9 : RState :=
  ⟨[("a.com", ("4.4.4.4", 1))],
   [⟨1, "a.com", "Iterative (Resolved)", "198.41.0.4", "Authoritative",
     "Answer: 4.4.4.4", 1, some 1, "MISS"⟩],
   [("a.com", (1, 1))], 1, 1, 1⟩

def stW9f : RState :=
  ⟨[],
   [⟨1, "b.com", "Iterative (Query Failed)", "198.41.0.4", "Root",
     "Timeout or invalid response", 1, none, "MISS"⟩],
   [], 0, 1, 1⟩

theorem claim_C9_witness :
    handle_query envW9 77 "a.com." 10 stEmpty = (⟨77, 1, 1, 0, 0, "a.com.", ansW9.an⟩, stW9) ∧
    handle_query envNone 78 "b.com." 10 stEmpty = (⟨78, 1, 0, 0, 2, "b.com.", []⟩, stW9f) :=
  ⟨(claim_C9_server_response envW9 77 "a.com." 10 stEmpty).1 ansW9 stW9 (by decide),
   (claim_C9_server_response envNone 78 "b.com." 10 stEmpty).2 stW9f (by decide)⟩

theorem claim_C10_witness :
    dictGet (DnsCache.set [] 0 "Example.COM" "1.1.1.1") "example.com" =
      dictGet ([] : List (String × (String × Nat))) "example.com" ∧
    (DnsCache.get (DnsCache.set [] 0 "ns1.example.com." "2.2.2.2") 5 "ns1.example.com").1 =
      (DnsCache.get ([] : List (String × (String × Nat))) 5 "ns1.example.com").1 ∧
    (∃ n, ("WWW.Example.COM." : String).data =
      (strip_trailing_dots "WWW.Example.COM.").data ++ List.replicate n '.') ∧
    (strip_trailing_dots "WWW.Example.COM.").data.getLast? ≠ some '.' :=
  ⟨claim_C10_exact_cache_keys.1 [] 0 "Example.COM" "example.com" "1.1.1.1" (by decide),
   claim_C10_exact_cache_keys.2.1 [] 5 0 "ns1.example.com." "ns1.example.com" "2.2.2.2"
     (by decide),
   claim_C10_exact_cache_keys.2.2.1 "WWW.Example.COM.",
   claim_C10_exact_cache_keys.2.2.2 "WWW.Example.COM."⟩
